import Mathlib

/-!
# employee_api_eks: the server bootstrap of `main.go`

`main.go` is glue over three libraries (gin, gin-metrics, logrus) and three
packages of the repository whose code is outside `main.go` (`docs`,
`middleware`, `routes`).  The development below embeds

* the router operations `main` calls (`gin.New`, `Use`, `Group`, `GET`,
  `Run`) as functions on an explicit `Engine` value,
* the handler chain of a request (`Context.Next`) as a recursive evaluator
  `runHandlers` over the chain of the matched route, with one definition per
  middleware and handler,
* `init` and `main` themselves, statement by statement (`init`, `boot`,
  `listening`, `main`).

What is outside `main.go` is either a field of `Env` (what the employee
handlers, the documentation renderer and the listener do is a parameter of
every theorem) or a definition whose doc comment says which behaviour of a
library or of a collaborator it stands for.

Paths are kept as the list of their slash-separated elements after the
leading slash: `/api/v1` is `["api", "v1"]`, `/` is `[""]`, and a trailing
slash is a final empty element.
-/

namespace EmployeeApi

/-! ## Paths -/

/-- Splits a character list at every `/`; `cur` holds the element being read. -/
def splitAux : List Char → List Char → List String
  | [], cur => [String.mk cur.reverse]
  | c :: cs, cur =>
    if c = '/' then String.mk cur.reverse :: splitAux cs [] else splitAux cs (c :: cur)

/-- The slash-separated elements of a string: `"/api/v1"` gives `["", "api", "v1"]`. -/
def splitPath (s : String) : List String := splitAux s.data []

/-- The elements of a request path after its leading slash; `none` when the
path does not start with a slash (such a request matches no route). -/
def requestElems (path : String) : Option (List String) :=
  match path.data with
  | '/' :: rest => some (splitAux rest [])
  | _ => none

/-- Go's `path.Clean` on the elements of a rooted path: empty and `.` elements
are dropped, `..` removes the element before it (and is dropped at the root).
`stack` is the cleaned path so far. -/
def cleanAux : List String → List String → List String
  | stack, [] => stack
  | stack, e :: es =>
    if e = "" ∨ e = "." then cleanAux stack es
    else if e = ".." then cleanAux stack.dropLast es
    else cleanAux (stack ++ [e]) es

/-- gin's `joinPaths(absolutePath, relativePath)`: the relative path is appended
with `path.Join` (which cleans the result), and a trailing slash of the relative
path is kept. -/
def joinPaths (absolutePath : List String) (relativePath : String) : List String :=
  if relativePath = "" then absolutePath
  else
    let finalPath := cleanAux [] (absolutePath ++ splitPath relativePath)
    if finalPath = [] then [""]
    else if (splitPath relativePath).getLast? = some "" then finalPath ++ [""]
    else finalPath

/-- Whether a registered route path matches the elements of a request path.
An element starting with `*` is a catch-all and matches the rest of the path.
An element starting with `:` is a parameter: it takes the request element up to
the next slash, which may be empty when more of the path follows and is not
empty at the end of the path.  Any other element is static and must be equal.
(Patterns that mix static text and a parameter in one element are not
modelled.) -/
def matchPath : List String → List String → Bool
  | [], [] => true
  | p :: ps, x :: xs =>
    match p.data with
    | '*' :: _ => true
    | ':' :: _ => (x ≠ "" || !xs.isEmpty) && matchPath ps xs
    | _ => p = x && matchPath ps xs
  | _, _ => false

/-- The rank gin's tree gives an element of a route path when several children
of a node match: static text is tried first, then the parameter or catch-all. -/
def elemRank (p : String) : Nat :=
  match p.data with
  | ':' :: _ => 1
  | '*' :: _ => 2
  | _ => 0

/-- Whether gin's tree walk reaches the route path `a` before the route path
`b`: at the first element where their ranks differ, `a` has the static one (or
the parameter against a catch-all). -/
def prefers : List String → List String → Bool
  | x :: xs, y :: ys =>
    if elemRank x < elemRank y then true
    else if elemRank y < elemRank x then false
    else prefers xs ys
  | _, _ => false

/-- Whether a route path matches request elements that are followed by one more
slash: as `matchPath`, but a parameter takes the element before that slash even
when it is empty. -/
def matchBeforeSlash : List String → List String → Bool
  | [], [] => true
  | p :: ps, x :: xs =>
    match p.data with
    | '*' :: _ => true
    | ':' :: _ => matchBeforeSlash ps xs
    | _ => p = x && matchBeforeSlash ps xs
  | _, _ => false

/-! ## Requests, handlers and the process state -/

/-- The part of `http.Request` that `main.go` and the middleware read. -/
structure Request where
  Method : String
  Path : String
  Host : String
  deriving DecidableEq, Repr

/-- The handler functions that occur in the chains `main` builds. -/
inductive HandlerFunc where
  /-- The interceptor `monitor.Use` installs (`m.monitorInterceptor`). -/
  | monitorInterceptor
  /-- The handler `monitor.Use` registers at the metric path. -/
  | metricsEndpoint
  /-- The result of `gin.Recovery()`. -/
  | recovery
  /-- The result of `middlewares.LoggingMiddleware()`. -/
  | logging
  /-- The closure of `main.go` lines 41-45. -/
  | swagger
  /-- A handler attached by `routes.CreateRouterForEmployee`, by name. -/
  | employee (name : String)
  deriving DecidableEq, Repr

/-- What a terminal handler of a collaborator does with a request. -/
inductive HandlerResult where
  /-- It writes a response and returns. -/
  | wrote (status : Nat) (body : String)
  /-- It raises a fault (a Go panic) before it has written anything. -/
  | panicked (err : String)
  /-- It writes the response header and some body, then raises a fault. -/
  | wroteThenPanicked (status : Nat) (body : String) (err : String)
  /-- It raises a fault that is a broken connection (a `net.OpError` for a
  broken pipe or a connection reset), before it has written anything. -/
  | brokenPipe (err : String)
  deriving DecidableEq, Repr

/-- The value a fault carries, as far as `gin.Recovery` tells faults apart. -/
inductive Fault where
  /-- Any panic that is not a broken connection. -/
  | panic (err : String)
  /-- A broken pipe or a connection reset by the peer. -/
  | brokenPipe (err : String)
  deriving DecidableEq, Repr

/-- The message of a fault. -/
def Fault.err : Fault → String
  | .panic err => err
  | .brokenPipe err => err

/-- Whether the rest of a chain returned to its caller or is unwinding. -/
inductive Flow where
  | returned
  | panicking (fault : Fault)
  deriving DecidableEq, Repr

/-- The fields of `docs.SwaggerInfo` that `main.go` writes. -/
structure SwaggerInfo where
  Host : String
  BasePath : String
  deriving DecidableEq, Repr

/-- One call of the monitor's `ginMetricHandle`: the labels of the request it
counts and times. -/
structure Observation where
  /-- The path of the matched route, empty when no route matched. -/
  path : List String
  method : String
  status : Nat
  deriving DecidableEq, Repr

/-- The `ginmetrics.Monitor` singleton.  A `float64` bucket boundary is kept as
the decimal value of its literal. -/
structure Monitor where
  metricPath : String
  slowTime : Int
  reqDuration : List ℚ
  observations : List Observation

/-- The logrus levels, from most to least severe. -/
inductive Level where
  | PanicLevel | FatalLevel | ErrorLevel | WarnLevel | InfoLevel | DebugLevel | TraceLevel
  deriving DecidableEq, Repr

/-- The numeric value logrus gives a level. -/
def Level.toNat : Level → Nat
  | .PanicLevel => 0 | .FatalLevel => 1 | .ErrorLevel => 2 | .WarnLevel => 3
  | .InfoLevel => 4 | .DebugLevel => 5 | .TraceLevel => 6

/-- The two formatters logrus ships. -/
inductive Formatter where
  | TextFormatter | JSONFormatter
  deriving DecidableEq, Repr

/-- A line the process wrote to its log. -/
inductive LogLine where
  /-- The line of the logging middleware for one request. -/
  | request (method path : String) (status : Nat)
  /-- A message logged through `logrus.Fatalf`. -/
  | fatal (msg : String)
  deriving DecidableEq, Repr

/-- The logrus standard logger: its settings and what it has written. -/
structure Logger where
  level : Level
  formatter : Formatter
  lines : List LogLine
  deriving DecidableEq, Repr

/-- The logger's `IsLevelEnabled`. -/
def Logger.IsLevelEnabled (l : Logger) (lvl : Level) : Bool :=
  decide (lvl.toNat ≤ l.level.toNat)

/-- Writes a line at a level, if the level is enabled. -/
def Logger.log (l : Logger) (lvl : Level) (line : LogLine) : Logger :=
  if l.IsLevelEnabled lvl then { l with lines := l.lines ++ [line] } else l

/-- gin's `RouterGroup`: the middleware collected so far and the base path. -/
structure RouterGroup where
  Handlers : List HandlerFunc
  basePath : List String
  deriving DecidableEq, Repr

/-- A registered route: method, full path and the chain fixed at registration. -/
structure Route where
  method : String
  fullPath : List String
  handlers : List HandlerFunc
  deriving DecidableEq, Repr

/-- gin's `Engine`: the root group, the registered routes and the chain served
when no route matches. -/
structure Engine where
  group : RouterGroup
  trees : List Route
  allNoRoute : List HandlerFunc
  RedirectTrailingSlash : Bool
  deriving DecidableEq, Repr

/-- An endpoint of the employee resource: what the registrar attaches. -/
structure Endpoint where
  method : String
  relativePath : String
  handler : String
  deriving DecidableEq, Repr

/-- The outcome of `router.Run(addr)`: it blocks while the server is serving,
or it returns, with an error or without. -/
inductive RunResult where
  | blocks
  | returns (err : Option String)
  deriving DecidableEq, Repr

/-- Everything `main.go` depends on but does not define.  `σ` is the state the
employee handlers own (their storage); `main.go` hands them the routing group
and nothing else. -/
structure Env (σ : Type) where
  /-- The logrus standard logger before `init` runs. -/
  logger0 : Logger
  /-- The monitor `ginmetrics.GetMonitor()` returns. -/
  monitor0 : Monitor
  /-- The generated `docs.SwaggerInfo`. -/
  docs0 : SwaggerInfo
  /-- The initial state of the employee handlers. -/
  app0 : σ
  /-- The endpoints `routes.CreateRouterForEmployee` attaches. -/
  endpoints : List Endpoint
  /-- What the employee handler of a given name does. -/
  employee : String → Request → σ → HandlerResult × σ
  /-- What `ginSwagger.WrapHandler(swaggerfiles.Handler)` does, given the
  `docs.SwaggerInfo` it reads. -/
  render : SwaggerInfo → Request → HandlerResult
  /-- What `http.ListenAndServe` does for an address. -/
  listen : String → RunResult
  /-- The exposition text the prometheus handler renders for the monitor. -/
  exposition : Monitor → String

/-- The state of the process. -/
structure Process (σ : Type) where
  /-- The gin mode. -/
  mode : String
  logger : Logger
  swaggerInfo : SwaggerInfo
  monitor : Monitor
  router : Engine
  /-- The addresses `Run` was called with, in order. -/
  listenCalls : List String
  /-- How often `routes.CreateRouterForEmployee` was called, and with which group. -/
  registrarCalls : List RouterGroup
  app : σ

/-- The per-request `gin.Context`: the request and the response writer's state. -/
structure Context where
  Request : Request
  /-- The path of the matched route (`c.FullPath()`), empty when none matched. -/
  fullPath : List String
  status : Nat
  body : String
  /-- Whether the response header has been sent (`c.Writer.Written()`). -/
  written : Bool
  deriving DecidableEq, Repr

/-- What the client of one request gets: a response, or a connection that
net/http closes because a fault left the handler chain. -/
inductive ServeResult where
  | response (status : Nat) (body : String)
  | aborted (err : String)
  deriving DecidableEq, Repr

/-- How the process stands after `main` ran: serving (`Run` is blocking), or
exited with a status code. -/
inductive Execution (σ : Type) where
  | serving (p : Process σ)
  | exited (code : Nat) (p : Process σ)

/-! ## The router operations `main` calls -/

/-- The engine `gin.New()` returns: no middleware, no routes, base path `/`. -/
def New : Engine :=
  { group := { Handlers := [], basePath := [""] }
    trees := []
    allNoRoute := []
    RedirectTrailingSlash := true }

/-- The group's `combineHandlers`: the group's middleware, then the given handlers. -/
def RouterGroup.combineHandlers (g : RouterGroup) (handlers : List HandlerFunc) :
    List HandlerFunc :=
  g.Handlers ++ handlers

/-- The engine's `Use`: appends middleware to the root group and rebuilds the
chain served when no route matches. -/
def Engine.Use (e : Engine) (middleware : List HandlerFunc) : Engine :=
  let g : RouterGroup := { e.group with Handlers := e.group.Handlers ++ middleware }
  { e with group := g, allNoRoute := g.combineHandlers [] }

/-- The group's `Group`: a new group that copies the middleware attached so far. -/
def RouterGroup.Group (g : RouterGroup) (relativePath : String)
    (handlers : List HandlerFunc) : RouterGroup :=
  { Handlers := g.combineHandlers handlers
    basePath := joinPaths g.basePath relativePath }

/-- The group's `handle`: registers a route whose chain is the group's
middleware at this moment followed by the given handlers.  (gin refuses, at
startup, a path that conflicts with a registered one; such a process never
serves and is not modelled.) -/
def RouterGroup.handle (g : RouterGroup) (httpMethod relativePath : String)
    (handlers : List HandlerFunc) (e : Engine) : Engine :=
  { e with trees := e.trees ++
      [{ method := httpMethod
         fullPath := joinPaths g.basePath relativePath
         handlers := g.combineHandlers handlers }] }

/-- The engine's `GET`, a `handle` on its root group. -/
def Engine.GET (e : Engine) (relativePath : String) (handlers : List HandlerFunc) : Engine :=
  e.group.handle "GET" relativePath handlers e

/-- The monitor's `SetMetricPath`. -/
def Monitor.SetMetricPath (m : Monitor) (path : String) : Monitor :=
  { m with metricPath := path }

/-- The monitor's `SetSlowTime`. -/
def Monitor.SetSlowTime (m : Monitor) (slowTime : Int) : Monitor :=
  { m with slowTime := slowTime }

/-- The monitor's `SetDuration`. -/
def Monitor.SetDuration (m : Monitor) (duration : List ℚ) : Monitor :=
  { m with reqDuration := duration }

/-- The monitor's `Use`: installs the interceptor as middleware, then registers
the exposition handler at the metric path. -/
def Monitor.Use (m : Monitor) (r : Engine) : Engine :=
  (r.Use [.monitorInterceptor]).GET m.metricPath [.metricsEndpoint]

/-- The monitor's `ginMetricHandle`: one observation of a finished request. -/
def Monitor.ginMetricHandle (m : Monitor) (c : Context) : Monitor :=
  { m with observations := m.observations ++
      [{ path := c.fullPath
         method := c.Request.Method
         status := c.status }] }

/-- Modelled from the spec: `routes.CreateRouterForEmployee` (package `routes`
is not part of the source), "given a routing group bound to prefix `/api/v1`,
attaches all employee-resource endpoints to it".  The endpoints are the table
`eps`; each is attached with the group's `handle`. -/
def CreateRouterForEmployee (eps : List Endpoint) (g : RouterGroup) (e : Engine) : Engine :=
  eps.foldl (fun e ep => g.handle ep.method ep.relativePath [.employee ep.handler] e) e

/-- The call `routes.CreateRouterForEmployee(v1)` of line 38: the registrar runs
on the group it is handed, and the call is added to the record of its calls. -/
def callRegistrar (eps : List Endpoint) (g : RouterGroup) (e : Engine)
    (calls : List RouterGroup) : Engine × List RouterGroup :=
  (CreateRouterForEmployee eps g e, calls ++ [g])

/-! ## Serving a request -/

/-- Line 43 of `main.go`: `docs.SwaggerInfo.Host = c.Request.Host`. -/
def swaggerSetHost (info : SwaggerInfo) (r : Request) : SwaggerInfo :=
  { info with Host := r.Host }

/-- Line 44 of `main.go`: the renderer is called; it reads `docs.SwaggerInfo`
as it is at that moment. -/
def swaggerRender {σ : Type} (env : Env σ) (info : SwaggerInfo) (r : Request) : HandlerResult :=
  env.render info r

/-- What running a handler chain from some handler on gives: whether it
returned or is unwinding, the context and the process state. -/
abbrev Outcome (σ : Type) : Type := Flow × Context × Process σ

/-- The rest of a chain, as a middleware sees it through `c.Next()`. -/
abbrev Next (σ : Type) : Type := Context → Process σ → Outcome σ

/-- The context's `AbortWithStatus(code)`: the status is set and the header
sent, unless the header has been sent already; then the response stays as it
was written. -/
def Context.AbortWithStatus (c : Context) (code : Nat) : Context :=
  if c.written then c else { c with status := code, written := true }

/-- What the result of a terminal handler does to the context, and whether the
handler returned. -/
def applyResult (res : HandlerResult) (c : Context) : Flow × Context :=
  match res with
  | .wrote status body =>
    (.returned, { c with status := status, body := body, written := true })
  | .panicked err => (.panicking (.panic err), c)
  | .wroteThenPanicked status body err =>
    (.panicking (.panic err), { c with status := status, body := body, written := true })
  | .brokenPipe err => (.panicking (.brokenPipe err), c)

/-- The interceptor of gin-metrics (`m.monitorInterceptor`), which `monitor.Use`
installs: a request for the metric path is passed on untouched; any other
request is observed (`ginMetricHandle`) once the rest of the chain returned.
The observation is an ordinary statement after `ctx.Next()`, so a fault that
reaches the interceptor skips it. -/
def monitorInterceptor {σ : Type} (next : Next σ) (c : Context) (p : Process σ) : Outcome σ :=
  if c.Request.Path = p.monitor.metricPath then next c p
  else
    match next c p with
    | (.returned, c1, p1) =>
      (.returned, c1, { p1 with monitor := p1.monitor.ginMetricHandle c1 })
    | (.panicking fault, c1, p1) => (.panicking fault, c1, p1)

/-- The middleware `gin.Recovery()` returns.  A fault of the rest of the chain
is caught and the middleware returns normally.  For a broken connection it only
aborts the context; for any other fault it calls `AbortWithStatus(500)`, which
sets status 500 unless the response header has been sent already.  The spec:
"any unhandled fault during request handling is caught, converted to a 500-class
response, and the process continues". -/
def Recovery {σ : Type} (next : Next σ) (c : Context) (p : Process σ) : Outcome σ :=
  match next c p with
  | (.returned, c1, p1) => (.returned, c1, p1)
  | (.panicking (.brokenPipe _), c1, p1) => (.returned, c1, p1)
  | (.panicking (.panic _), c1, p1) => (.returned, c1.AbortWithStatus 500, p1)

/-- Modelled from the spec: `middlewares.LoggingMiddleware()` (package
`middleware` is not part of the source), "a request-handling unit that logs
after each request completes"; "every request is recorded (method, path,
status, duration)", "regardless of outcome".  One line at info level through
logrus when the rest of the chain is done, whether it returned or raised a
fault; a fault goes on to the caller. -/
def LoggingMiddleware {σ : Type} (next : Next σ) (c : Context) (p : Process σ) : Outcome σ :=
  match next c p with
  | (flow, c1, p1) =>
    let line := LogLine.request c1.Request.Method c1.Request.Path c1.status
    (flow, c1, { p1 with logger := p1.logger.log .InfoLevel line })

/-- The closure of `main.go` lines 41-45: the request's host is written to
`docs.SwaggerInfo.Host` (line 43), then the renderer is called (line 44). -/
def swaggerHandler {σ : Type} (env : Env σ) (c : Context) (p : Process σ) : Outcome σ :=
  let p1 := { p with swaggerInfo := swaggerSetHost p.swaggerInfo c.Request }
  let res := swaggerRender env p1.swaggerInfo c.Request
  ((applyResult res c).1, (applyResult res c).2, p1)

/-- A handler the registrar attached, run on the state of the employee handlers. -/
def employeeHandler {σ : Type} (env : Env σ) (name : String) (c : Context) (p : Process σ) :
    Outcome σ :=
  let res := env.employee name c.Request p.app
  ((applyResult res.1 c).1, (applyResult res.1 c).2, { p with app := res.2 })

/-- The handler `monitor.Use` registers at the metric path: it answers 200 with
the exposition text of the monitor. -/
def metricsHandler {σ : Type} (env : Env σ) (c : Context) (p : Process σ) : Outcome σ :=
  (.returned, { c with status := 200, body := env.exposition p.monitor, written := true }, p)

/-- After a handler that does not call `c.Next()` returned, the loop of the
enclosing `Next` runs the rest of the chain; a fault skips it. -/
def thenNext {σ : Type} (o : Outcome σ) (next : Next σ) : Outcome σ :=
  match o with
  | (.returned, c, p) => next c p
  | (.panicking fault, c, p) => (.panicking fault, c, p)

/-- Runs a handler chain as `Context.Next` does: a middleware gets the rest of
the chain as its `c.Next()`, a handler that does not call `c.Next()` is followed
by the rest of the chain. -/
def runHandlers {σ : Type} (env : Env σ) : List HandlerFunc → Next σ
  | [] => fun c p => (.returned, c, p)
  | .monitorInterceptor :: rest => monitorInterceptor (runHandlers env rest)
  | .recovery :: rest => Recovery (runHandlers env rest)
  | .logging :: rest => LoggingMiddleware (runHandlers env rest)
  | .metricsEndpoint :: rest => fun c p =>
    thenNext (metricsHandler env c p) (runHandlers env rest)
  | .swagger :: rest => fun c p => thenNext (swaggerHandler env c p) (runHandlers env rest)
  | .employee name :: rest => fun c p =>
    thenNext (employeeHandler env name c p) (runHandlers env rest)

/-- The better of two routes that match a request, as gin's tree walk finds
them: the one whose path it reaches first; of two it ranks alike, the one
registered first. -/
def pickRoute (best : Option Route) (rt : Route) : Option Route :=
  match best with
  | none => some rt
  | some b => if prefers rt.fullPath b.fullPath then some rt else some b

/-- The route gin finds for a method and the elements of a request path: of the
registered routes that match, the one its tree walk reaches first (static
elements before a parameter before a catch-all). -/
def Engine.getValue (e : Engine) (httpMethod : String) (elems : List String) : Option Route :=
  (e.trees.filter (fun rt => rt.method = httpMethod && matchPath rt.fullPath elems)).foldl
    pickRoute none

/-- How the engine answers a request. -/
inductive Dispatch where
  /-- A registered route matched: its chain runs. -/
  | route (rt : Route)
  /-- No route matched and the engine recommends the path with the trailing
  slash toggled: it redirects by itself, no handler runs. -/
  | redirect
  /-- Nothing matched: the no-route chain runs and the answer is 404. -/
  | noRoute
  deriving DecidableEq, Repr

/-- Whether gin recommends a trailing-slash redirect for a request that matched
no route: the path without its final slash, or with one added, has a route of
the same method.  gin takes the recommendation from its walk through the radix
tree of the routes; this is that recommendation for route paths made of whole
static, parameter and catch-all elements. -/
def Engine.tsr (e : Engine) (httpMethod : String) (elems : List String) : Bool :=
  if elems.getLast? = some "" then
    e.trees.any (fun rt => rt.method = httpMethod && matchBeforeSlash rt.fullPath elems.dropLast)
  else
    e.trees.any (fun rt => rt.method = httpMethod && matchPath rt.fullPath (elems ++ [""]))

/-- The decision of gin's `handleHTTPRequest`: the route `getValue` finds; for a
request that matches none, the redirect when `RedirectTrailingSlash` is set and
the tree recommends it; the no-route chain otherwise.  The statements about
faults, observations and log lines below take the engine's decision as given
(`serveWith`): they hold whichever way the router decides. -/
def Engine.dispatch (e : Engine) (r : Request) : Dispatch :=
  match requestElems r.Path with
  | none => .noRoute
  | some elems =>
    match e.getValue r.Method elems with
    | some rt => .route rt
    | none =>
      if r.Method ≠ "CONNECT" ∧ r.Path ≠ "/" ∧ e.RedirectTrailingSlash = true ∧
          e.tsr r.Method elems = true then .redirect
      else .noRoute

/-- What the client gets once the chain is done. -/
def finish {σ : Type} : Outcome σ → ServeResult × Process σ
  | (.returned, c, p) => (.response c.status c.body, p)
  | (.panicking fault, _, p) => (.aborted fault.err, p)

/-- The context gin hands to the chain of a matched route. -/
def routeContext (r : Request) (rt : Route) : Context :=
  { Request := r, fullPath := rt.fullPath, status := 200, body := "", written := false }

/-- The context gin hands to the no-route chain: status 404, nothing written. -/
def noRouteContext (r : Request) : Context :=
  { Request := r, fullPath := [], status := 404, body := "", written := false }

/-- gin's `serveError` for status 404: the status is set, the no-route chain
runs, and the default body is written when the chain wrote nothing and left the
status. -/
def serveError {σ : Type} (env : Env σ) (chain : List HandlerFunc) (r : Request)
    (p : Process σ) : Outcome σ :=
  match runHandlers env chain (noRouteContext r) p with
  | (.returned, c, p1) =>
    if c.written = false ∧ c.status = 404 then
      (.returned, { c with body := "404 page not found", written := true }, p1)
    else (.returned, c, p1)
  | (.panicking fault, c, p1) => (.panicking fault, c, p1)

/-- What gin does with a request once its router has decided: a matched route
runs its chain from status 200; the redirect is 301 for `GET` and 307
otherwise, and no handler runs; otherwise the no-route chain runs. -/
def serveWith {σ : Type} (env : Env σ) (p : Process σ) (r : Request) :
    Dispatch → ServeResult × Process σ
  | .route rt => finish (runHandlers env rt.handlers (routeContext r rt) p)
  | .redirect => (.response (if r.Method = "GET" then 301 else 307) "", p)
  | .noRoute => finish (serveError env p.router.allNoRoute r p)

/-- Serves one request: gin's `handleHTTPRequest` on a fresh context. -/
def serve {σ : Type} (env : Env σ) (p : Process σ) (r : Request) : ServeResult × Process σ :=
  serveWith env p r (p.router.dispatch r)

/-- The process state after serving a sequence of requests one after the other. -/
def serveAll {σ : Type} (env : Env σ) (p : Process σ) : List Request → Process σ
  | [] => p
  | r :: rs => serveAll env (serve env p r).2 rs

/-! ## `init` and `main` -/

/-- The function `init` of `main.go` (lines 14-17). -/
def init (l : Logger) : Logger :=
  let l := { l with level := .InfoLevel }
  { l with formatter := .JSONFormatter }

/-- The statements of `main` before `router.Run` (lines 20-45), after `init`. -/
def boot {σ : Type} (env : Env σ) : Process σ :=
  let logger := init env.logger0
  let mode := "release"
  let router := New
  let monitor := env.monitor0
  let monitor := monitor.SetMetricPath "/metrics"
  let monitor := monitor.SetSlowTime 1
  let monitor := monitor.SetDuration [0.1, 0.3, 1.2, 5, 10]
  let router := monitor.Use router
  let router := router.Use [.recovery]
  let router := router.Use [.logging]
  let v1 := router.group.Group "/api/v1" []
  let swaggerInfo := { env.docs0 with BasePath := "/api/v1/employee" }
  let registered := callRegistrar env.endpoints v1 router []
  let router := registered.1
  let router := router.GET "/swagger/*any" [.swagger]
  { mode := mode
    logger := logger
    swaggerInfo := swaggerInfo
    monitor := monitor
    router := router
    listenCalls := []
    registrarCalls := registered.2
    app := env.app0 }

/-- The process once `router.Run(addr)` has been called: the call is recorded. -/
def Process.Run {σ : Type} (p : Process σ) (addr : String) : Process σ :=
  { p with listenCalls := p.listenCalls ++ [addr] }

/-- The state in which requests are served: `main` has reached `router.Run(":8080")`. -/
def listening {σ : Type} (env : Env σ) : Process σ :=
  (boot env).Run ":8080"

/-- The logrus `Fatalf` of line 49: the message is logged at fatal level and
the process exits with status 1. -/
def Fatalf {σ : Type} (p : Process σ) (msg : String) : Execution σ :=
  .exited 1 { p with logger := p.logger.log .FatalLevel (.fatal msg) }

/-- The function `main` of `main.go`: the process is configured, `Run` is
called once, and its result decides how `main` ends. -/
def main {σ : Type} (env : Env σ) : Execution σ :=
  let p := listening env
  match env.listen ":8080" with
  | .returns (some err) => Fatalf p ("Failed to start server: " ++ err)
  | .returns none => .exited 0 p
  | .blocks => .serving p

/-! ## Names for what `main` builds -/

/-- The middleware `main` attaches to the root group, in the order of lines 29-33. -/
def middlewareChain : List HandlerFunc := [.monitorInterceptor, .recovery, .logging]

/-- The route `monitor.Use(router)` registers (line 29). -/
def metricsRoute : Route :=
  { method := "GET", fullPath := ["metrics"], handlers := [.monitorInterceptor, .metricsEndpoint] }

/-- The route of lines 41-45. -/
def swaggerRoute : Route :=
  { method := "GET", fullPath := ["swagger", "*any"]
    handlers := [.monitorInterceptor, .recovery, .logging, .swagger] }

/-- The route the registrar's `handle` creates for an endpoint on the group `v1`. -/
def employeeRoute (ep : Endpoint) : Route :=
  { method := ep.method, fullPath := joinPaths ["api", "v1"] ep.relativePath
    handlers := [.monitorInterceptor, .recovery, .logging, .employee ep.handler] }

/-- The group `v1` of line 36. -/
def v1Group : RouterGroup :=
  { Handlers := [.monitorInterceptor, .recovery, .logging], basePath := ["api", "v1"] }

/-- The configuration of the server: what `main` fixes before it starts to listen. -/
structure Config where
  mode : String
  level : Level
  formatter : Formatter
  listenCalls : List String
  registrarCalls : List RouterGroup
  docBasePath : String
  metricPath : String
  slowTime : Int
  reqDuration : List ℚ
  router : Engine

/-- The configuration part of a process state. -/
def Process.config {σ : Type} (p : Process σ) : Config :=
  { mode := p.mode
    level := p.logger.level
    formatter := p.logger.formatter
    listenCalls := p.listenCalls
    registrarCalls := p.registrarCalls
    docBasePath := p.swaggerInfo.BasePath
    metricPath := p.monitor.metricPath
    slowTime := p.monitor.slowTime
    reqDuration := p.monitor.reqDuration
    router := p.router }

/-- The state of the server after it has served the requests `served`, one
after the other, since `main` started to listen. -/
def reached {σ : Type} (env : Env σ) (served : List Request) : Process σ :=
  serveAll env (listening env) served

/-- The route's own handler (the last of its chain) run on the request without
any middleware around it. -/
def handlerRun {σ : Type} (env : Env σ) (p : Process σ) (r : Request) (rt : Route) :
    Outcome σ :=
  runHandlers env rt.handlers.getLast?.toList (routeContext r rt) p

/-- A sample deployment.  Its employee endpoints: `byid`, registered first,
takes any employee id; `health` and `search` answer 200; `create` raises a fault
before it writes; `export` writes status 200 and part of its body and then
raises a fault; `upload` fails with a broken connection.  The renderer answers
with the host it finds in `docs.SwaggerInfo`; the listener starts and blocks.
The handlers count the requests they handled. -/
def sampleEnv : Env Nat :=
  { logger0 := { level := .InfoLevel, formatter := .TextFormatter, lines := [] }
    monitor0 :=
      { metricPath := "/debug/metrics", slowTime := 5
        reqDuration := [0.1, 0.3, 1.2, 5, 10], observations := [] }
    docs0 := { Host := "", BasePath := "" }
    app0 := 0
    endpoints :=
      [ { method := "GET", relativePath := "/employee/:id", handler := "byid" },
        { method := "GET", relativePath := "/employee/health", handler := "health" },
        { method := "POST", relativePath := "/employee/create", handler := "create" },
        { method := "GET", relativePath := "/employee/search/:id", handler := "search" },
        { method := "GET", relativePath := "/employee/export", handler := "export" },
        { method := "POST", relativePath := "/employee/upload", handler := "upload" } ]
    employee := fun name _ n =>
      if name = "create" then (.panicked "storage unavailable", n)
      else if name = "export" then (.wroteThenPanicked 200 "id,name" "encoder failed", n)
      else if name = "upload" then (.brokenPipe "write: broken pipe", n)
      else (.wrote 200 name, n + 1)
    render := fun info _ => .wrote 200 info.Host
    listen := fun _ => .blocks
    exposition := fun _ => "# TYPE gin_request_total counter" }

/-- Whether a request is a documentation request: one that the router `main`
built dispatches to the route `GET /swagger/*any`. -/
def isDocRequest {σ : Type} (env : Env σ) (r : Request) : Bool :=
  decide ((boot env).router.dispatch r = .route swaggerRoute)

/-- The context after the recovery middleware, given how the chain below it
ended: `AbortWithStatus(500)` after a fault that is not a broken connection,
the context as it is otherwise. -/
def afterRecovery (flow : Flow) (c : Context) : Context :=
  match flow with
  | .panicking (.panic _) => c.AbortWithStatus 500
  | _ => c

/-- What the client of a route under the recovery middleware gets when the
route's own handler ends with `res`: the response the handler wrote, if it
wrote one; status 500 when it raised a fault before writing; the untouched
status 200 when the connection broke. -/
def clientGets (res : HandlerResult) : ServeResult :=
  match res with
  | .wrote status body => .response status body
  | .panicked _ => .response 500 ""
  | .wroteThenPanicked status body _ => .response status body
  | .brokenPipe _ => .response 200 ""

/-- The endpoint `GET /employee/health` of the sample deployment. -/
def healthEndpoint : Endpoint :=
  { method := "GET", relativePath := "/employee/health", handler := "health" }

/-- The endpoint `POST /employee/create` of the sample deployment. -/
def createEndpoint : Endpoint :=
  { method := "POST", relativePath := "/employee/create", handler := "create" }

/-- A request for the health endpoint. -/
def healthRequest : Request :=
  { Method := "GET", Path := "/api/v1/employee/health", Host := "a.example" }

/-- A request for the create endpoint, whose handler raises a fault. -/
def createRequest : Request :=
  { Method := "POST", Path := "/api/v1/employee/create", Host := "a.example" }

/-- A documentation request that reached the server as `a.example`. -/
def docsRequestA : Request :=
  { Method := "GET", Path := "/swagger/index.html", Host := "a.example" }

/-- A documentation request that reached the server as `b.example`. -/
def docsRequestB : Request :=
  { Method := "GET", Path := "/swagger/doc.json", Host := "b.example" }

/-- A documentation request with an empty host header. -/
def docsRequestNoHost : Request :=
  { Method := "GET", Path := "/swagger/doc.json", Host := "" }

/-- A request for the metrics exposition. -/
def metricsRequest : Request :=
  { Method := "GET", Path := "/metrics", Host := "a.example" }

/-- A request whose path ends in two slashes after `search`: no route matches
it, and the router answers it with a trailing-slash redirect. -/
def doubleSlashRequest : Request :=
  { Method := "GET", Path := "/api/v1/employee/search//", Host := "a.example" }

/-- The endpoint `GET /employee/export` of the sample deployment. -/
def exportEndpoint : Endpoint :=
  { method := "GET", relativePath := "/employee/export", handler := "export" }

/-- The endpoint `POST /employee/upload` of the sample deployment. -/
def uploadEndpoint : Endpoint :=
  { method := "POST", relativePath := "/employee/upload", handler := "upload" }

/-- A request for the export endpoint, whose handler writes and then raises a fault. -/
def exportRequest : Request :=
  { Method := "GET", Path := "/api/v1/employee/export", Host := "a.example" }

/-- A request for the upload endpoint, whose handler fails with a broken connection. -/
def uploadRequest : Request :=
  { Method := "POST", Path := "/api/v1/employee/upload", Host := "a.example" }

/-- An endpoint whose relative path climbs out of the group with `..` elements. -/
def adminEndpoint : Endpoint :=
  { method := "GET", relativePath := "../../admin", handler := "admin" }

/-- The sample deployment with a registrar that attaches `adminEndpoint`. -/
def escapeEnv : Env Nat :=
  { sampleEnv with endpoints := [adminEndpoint] }

/-- A request for `/admin`, a path outside `/api/v1`. -/
def adminRequest : Request :=
  { Method := "GET", Path := "/admin", Host := "a.example" }

/-- The sample deployment on a machine where port 8080 is taken: the listener
returns an error. -/
def busyEnv : Env Nat :=
  { sampleEnv with
    listen := fun _ => .returns (some "listen tcp :8080: bind: address already in use") }

/-! ## Documentation requests served concurrently

gin serves every request in a goroutine of its own, and the closure of lines
41-45 takes no lock: between its two statements another goroutine may run.  A
goroutine is modelled by the statements it still has to run; a schedule says
which goroutine runs its next statement. -/

/-- The two statements of the closure of lines 41-45. -/
inductive SwaggerStep where
  /-- Line 43: the write of `docs.SwaggerInfo.Host`. -/
  | setHost
  /-- Line 44: the call of the renderer, which reads `docs.SwaggerInfo`. -/
  | render
  deriving DecidableEq, Repr

/-- A goroutine that serves a documentation request: the statements it still
has to run, the `docs.SwaggerInfo` its renderer read, and the renderer's result. -/
structure DocThread where
  request : Request
  todo : List SwaggerStep
  seen : Option SwaggerInfo
  result : Option HandlerResult
  deriving DecidableEq, Repr

/-- The goroutine of a documentation request when it enters the closure. -/
def DocThread.start (r : Request) : DocThread :=
  { request := r, todo := [.setHost, .render], seen := none, result := none }

/-- The next statement of a goroutine, run on the shared `docs.SwaggerInfo`. -/
def DocThread.step {σ : Type} (env : Env σ) (info : SwaggerInfo) (t : DocThread) :
    SwaggerInfo × DocThread :=
  match t.todo with
  | [] => (info, t)
  | .setHost :: rest => (swaggerSetHost info t.request, { t with todo := rest })
  | .render :: rest =>
    (info, { t with todo := rest, seen := some info
                    result := some (swaggerRender env info t.request) })

/-- Two goroutines under a schedule: `false` runs the next statement of the
first, `true` the next statement of the second. -/
def interleave {σ : Type} (env : Env σ) :
    List Bool → SwaggerInfo → DocThread → DocThread → SwaggerInfo × DocThread × DocThread
  | [], info, a, b => (info, a, b)
  | false :: s, info, a, b => interleave env s (a.step env info).1 (a.step env info).2 b
  | true :: s, info, a, b => interleave env s (b.step env info).1 a (b.step env info).2

/-! ## The router `main` builds -/

theorem CreateRouterForEmployee_eq (eps : List Endpoint) (g : RouterGroup) (e : Engine) :
    CreateRouterForEmployee eps g e =
      { e with trees := e.trees ++ eps.map (fun ep =>
          { method := ep.method, fullPath := joinPaths g.basePath ep.relativePath
            handlers := g.Handlers ++ [.employee ep.handler] }) } := by
  unfold CreateRouterForEmployee
  induction eps generalizing e with
  | nil => simp
  | cons ep eps ih =>
    rw [List.foldl_cons, ih]
    simp [RouterGroup.handle, RouterGroup.combineHandlers]

theorem boot_router {σ : Type} (env : Env σ) :
    (boot env).router =
      { group := { Handlers := middlewareChain, basePath := [""] }
        trees := metricsRoute :: (env.endpoints.map employeeRoute ++ [swaggerRoute])
        allNoRoute := middlewareChain
        RedirectTrailingSlash := true } := by
  have h1 : joinPaths [""] "/metrics" = ["metrics"] := by decide
  have h2 : joinPaths [""] "/api/v1" = ["api", "v1"] := by decide
  have h3 : joinPaths [""] "/swagger/*any" = ["swagger", "*any"] := by decide
  simp only [boot, callRegistrar, CreateRouterForEmployee_eq, Monitor.Use, Engine.Use, Engine.GET,
    RouterGroup.handle, RouterGroup.Group, RouterGroup.combineHandlers, New,
    Monitor.SetMetricPath, Monitor.SetSlowTime, Monitor.SetDuration, h1, h2, h3]
  simp [middlewareChain, metricsRoute, swaggerRoute, employeeRoute]

/-! ## What serving leaves untouched -/

theorem Logger.log_level (l : Logger) (lvl : Level) (line : LogLine) :
    (l.log lvl line).level = l.level ∧ (l.log lvl line).formatter = l.formatter := by
  unfold Logger.log
  split <;> simp

/-- A frame rule for handler chains: a view `f` of the process state that the
steps of the handlers in the chain leave alone is left alone by the chain. -/
theorem runHandlers_frame {σ α : Type} (env : Env σ) (f : Process σ → α)
    (hs : List HandlerFunc)
    (hmon : HandlerFunc.monitorInterceptor ∈ hs →
      ∀ (p : Process σ) c, f { p with monitor := p.monitor.ginMetricHandle c } = f p)
    (hlog : HandlerFunc.logging ∈ hs →
      ∀ (p : Process σ) line, f { p with logger := p.logger.log .InfoLevel line } = f p)
    (hsw : HandlerFunc.swagger ∈ hs →
      ∀ (p : Process σ) r, f { p with swaggerInfo := swaggerSetHost p.swaggerInfo r } = f p)
    (hemp : (∃ name, HandlerFunc.employee name ∈ hs) →
      ∀ (p : Process σ) a, f { p with app := a } = f p) :
    ∀ (c : Context) (p : Process σ), f (runHandlers env hs c p).2.2 = f p := by
  induction hs with
  | nil => intro c p; rfl
  | cons h rest ih =>
    have ih := ih (fun m => hmon (List.mem_cons_of_mem _ m))
      (fun m => hlog (List.mem_cons_of_mem _ m)) (fun m => hsw (List.mem_cons_of_mem _ m))
      (fun ⟨n, m⟩ => hemp ⟨n, List.mem_cons_of_mem _ m⟩)
    intro c p
    cases h with
    | monitorInterceptor =>
      simp only [runHandlers, monitorInterceptor]
      split
      · exact ih c p
      · have h1 := ih c p
        split <;> rename_i heq <;> rw [heq] at h1
        · simp only at h1 ⊢
          rw [hmon (List.mem_cons_self _ _), h1]
        · exact h1
    | metricsEndpoint =>
      simp only [runHandlers, thenNext, metricsHandler]
      exact ih _ p
    | recovery =>
      simp only [runHandlers, Recovery]
      have h1 := ih c p
      split <;> rename_i heq <;> rw [heq] at h1 <;> exact h1
    | logging =>
      simp only [runHandlers, LoggingMiddleware]
      have h1 := ih c p
      rw [hlog (List.mem_cons_self _ _)]
      exact h1
    | swagger =>
      simp only [runHandlers, swaggerHandler]
      cases swaggerRender env (swaggerSetHost p.swaggerInfo c.Request) c.Request <;>
        simp only [applyResult, thenNext] <;>
        first
          | rw [ih, hsw (List.mem_cons_self _ _)]
          | rw [hsw (List.mem_cons_self _ _)]
    | employee name =>
      simp only [runHandlers, employeeHandler]
      rcases env.employee name c.Request p.app with ⟨res, a⟩
      cases res <;> simp only [applyResult, thenNext] <;>
        first
          | rw [ih, hemp ⟨name, List.mem_cons_self _ _⟩]
          | rw [hemp ⟨name, List.mem_cons_self _ _⟩]

theorem runHandlers_config {σ : Type} (env : Env σ) (hs : List HandlerFunc) :
    ∀ (c : Context) (p : Process σ), (runHandlers env hs c p).2.2.config = p.config :=
  runHandlers_frame env Process.config hs
    (fun _ _ _ => by simp [Process.config, Monitor.ginMetricHandle])
    (fun _ _ _ => by simp [Process.config, Logger.log_level])
    (fun _ _ _ => by simp [Process.config, swaggerSetHost])
    (fun _ _ _ => by simp [Process.config])

theorem finish_snd {σ : Type} (x : Flow × Context × Process σ) : (finish x).2 = x.2.2 := by
  obtain ⟨f, c, p⟩ := x
  cases f <;> rfl

theorem serveError_process {σ : Type} (env : Env σ) (chain : List HandlerFunc) (r : Request)
    (p : Process σ) :
    (serveError env chain r p).2.2 = (runHandlers env chain (noRouteContext r) p).2.2 := by
  unfold serveError
  split
  · split <;> simp_all
  · simp_all

theorem serve_config {σ : Type} (env : Env σ) (p : Process σ) (r : Request) :
    (serve env p r).2.config = p.config := by
  unfold serve serveWith
  split
  · rw [finish_snd, runHandlers_config]
  · rfl
  · rw [finish_snd, serveError_process, runHandlers_config]

theorem serveAll_config {σ : Type} (env : Env σ) (rs : List Request) :
    ∀ p : Process σ, (serveAll env p rs).config = p.config := by
  induction rs with
  | nil => intro p; rfl
  | cons r rs ih => intro p; simp only [serveAll]; rw [ih, serve_config]

theorem serveAll_append {σ : Type} (env : Env σ) (rs rs2 : List Request) :
    ∀ p : Process σ, serveAll env p (rs ++ rs2) = serveAll env (serveAll env p rs) rs2 := by
  induction rs with
  | nil => intro p; rfl
  | cons r rs ih => intro p; rw [List.cons_append]; simp only [serveAll]; rw [ih]

/-! ## Paths: splitting, joining and matching -/

theorem splitAux_cons_inv (cs : List Char) :
    ∀ (cur : List Char) (e : String) (es : List String), splitAux cs cur = e :: es →
      (es = [] ∧ e = String.mk (cur.reverse ++ cs)) ∨
      (∃ pre cs', cs = pre ++ '/' :: cs' ∧ e = String.mk (cur.reverse ++ pre) ∧
        splitAux cs' [] = es) := by
  induction cs with
  | nil =>
    intro cur e es h
    simp [splitAux] at h
    left
    simp [h.1, h.2]
  | cons c cs ih =>
    intro cur e es h
    simp only [splitAux] at h
    split at h
    · rename_i hc
      right
      simp only [List.cons.injEq] at h
      exact ⟨[], cs, by simp [hc], by simp [h.1], h.2⟩
    · rcases ih (c :: cur) e es h with ⟨h1, h2⟩ | ⟨pre, cs', h1, h2, h3⟩
      · left
        exact ⟨h1, by simp [h2]⟩
      · right
        exact ⟨c :: pre, cs', by simp [h1], by simp [h2], h3⟩

theorem requestElems_under_api (path : String) (h : "/api/v1/".data <+: path.data) :
    ∃ rest, requestElems path = some ("api" :: "v1" :: rest) := by
  obtain ⟨t, ht⟩ := h
  have hd : "/api/v1/".data = ['/', 'a', 'p', 'i', '/', 'v', '1', '/'] := by decide
  rw [hd] at ht
  refine ⟨splitAux t [], ?_⟩
  unfold requestElems
  rw [← ht]
  simp [splitAux]

theorem requestElems_api_inv (path : String) (rest : List String)
    (h : requestElems path = some ("api" :: "v1" :: rest)) :
    "/api/v1".data <+: path.data := by
  unfold requestElems at h
  split at h
  · rename_i cs hcs
    simp only [Option.some.injEq] at h
    rcases splitAux_cons_inv cs [] _ _ h with ⟨h1, _⟩ | ⟨pre, cs', h1, h2, h3⟩
    · simp at h1
    · rcases splitAux_cons_inv cs' [] _ _ h3 with ⟨_, h5⟩ | ⟨pre2, cs2, h4, h5, _⟩
      · have e1 : pre = ['a', 'p', 'i'] := by
          have := congrArg String.data h2
          simpa using this.symm
        have e2 : cs' = ['v', '1'] := by
          have := congrArg String.data h5
          simpa using this.symm
        rw [hcs, h1, e1, e2]
        exact ⟨[], by decide⟩
      · have e1 : pre = ['a', 'p', 'i'] := by
          have := congrArg String.data h2
          simpa using this.symm
        have e2 : pre2 = ['v', '1'] := by
          have := congrArg String.data h5
          simpa using this.symm
        rw [hcs, h1, h4, e1, e2]
        exact ⟨'/' :: cs2, by simp⟩
  · simp at h

theorem cleanAux_keeps (es : List String) :
    ∀ stack : List String, ".." ∉ es → stack <+: cleanAux stack es := by
  induction es with
  | nil => intro stack _; exact List.prefix_refl _
  | cons e es ih =>
    intro stack h
    simp only [List.mem_cons, not_or] at h
    simp only [cleanAux]
    split
    · exact ih stack h.2
    · rw [if_neg (fun heq => h.1 heq.symm)]
      exact (List.prefix_append stack [e]).trans (ih _ h.2)

theorem joinPaths_v1 (rel : String) (h : ".." ∉ splitPath rel) :
    ["api", "v1"] <+: joinPaths ["api", "v1"] rel := by
  have hc : cleanAux [] (["api", "v1"] ++ splitPath rel) = cleanAux ["api", "v1"] (splitPath rel) := by
    simp [cleanAux]
  have hp := cleanAux_keeps (splitPath rel) ["api", "v1"] h
  unfold joinPaths
  split
  · exact List.prefix_refl _
  · simp only [hc]
    split
    · rename_i h0
      rw [h0] at hp
      simp at hp
    · split
      · exact hp.trans (List.prefix_append _ _)
      · exact hp

theorem matchPath_static (p : String) (ps elems : List String)
    (hp : p.data.head? ≠ some '*') (hc : p.data.head? ≠ some ':')
    (h : matchPath (p :: ps) elems = true) :
    ∃ xs, elems = p :: xs ∧ matchPath ps xs = true := by
  cases elems with
  | nil => simp [matchPath] at h
  | cons x xs =>
    unfold matchPath at h
    split at h
    · rename_i t ht; exact absurd (by rw [ht]; rfl) hp
    · rename_i t ht; exact absurd (by rw [ht]; rfl) hc
    · simp only [Bool.and_eq_true, decide_eq_true_eq] at h
      exact ⟨xs, by rw [h.1], h.2⟩

theorem matchPath_prefix_v1 (tail elems : List String)
    (h : matchPath ("api" :: "v1" :: tail) elems = true) :
    ∃ xs, elems = "api" :: "v1" :: xs := by
  obtain ⟨xs, h1, h2⟩ := matchPath_static "api" _ elems (by decide) (by decide) h
  obtain ⟨ys, h3, _⟩ := matchPath_static "v1" _ xs (by decide) (by decide) h2
  exact ⟨ys, by rw [h1, h3]⟩

/-! ## Dispatch -/

theorem foldl_pickRoute_mem (l : List Route) :
    ∀ (best : Option Route) (rt : Route), l.foldl pickRoute best = some rt →
      rt ∈ l ∨ best = some rt := by
  induction l with
  | nil => intro best rt h; exact Or.inr h
  | cons a l ih =>
    intro best rt h
    rw [List.foldl_cons] at h
    rcases ih _ rt h with h1 | h1
    · exact Or.inl (List.mem_cons_of_mem _ h1)
    · unfold pickRoute at h1
      split at h1
      · simp only [Option.some.injEq] at h1
        exact Or.inl (h1 ▸ List.mem_cons_self _ _)
      · split at h1
        · simp only [Option.some.injEq] at h1
          exact Or.inl (h1 ▸ List.mem_cons_self _ _)
        · exact Or.inr h1

theorem getValue_some (e : Engine) (m : String) (elems : List String) (rt : Route)
    (h : e.getValue m elems = some rt) :
    rt ∈ e.trees ∧ rt.method = m ∧ matchPath rt.fullPath elems = true := by
  unfold Engine.getValue at h
  rcases foldl_pickRoute_mem _ none rt h with h1 | h1
  · rw [List.mem_filter] at h1
    simp only [Bool.and_eq_true, decide_eq_true_eq] at h1
    exact ⟨h1.1, h1.2.1, h1.2.2⟩
  · simp at h1

theorem dispatch_route (e : Engine) (r : Request) (rt : Route)
    (h : e.dispatch r = .route rt) :
    ∃ elems, requestElems r.Path = some elems ∧ rt ∈ e.trees ∧ rt.method = r.Method ∧
      matchPath rt.fullPath elems = true := by
  unfold Engine.dispatch at h
  split at h
  · simp at h
  · rename_i elems helems
    split at h
    · rename_i rt2 hrt
      simp only [Dispatch.route.injEq] at h
      subst h
      exact ⟨elems, helems, getValue_some e _ _ _ hrt⟩
    · split at h <;> simp at h

theorem mem_boot_trees {σ : Type} (env : Env σ) (rt : Route) :
    rt ∈ (boot env).router.trees ↔
      rt = metricsRoute ∨ (∃ ep ∈ env.endpoints, rt = employeeRoute ep) ∨ rt = swaggerRoute := by
  rw [boot_router]
  simp only [List.mem_cons, List.mem_append, List.mem_map, List.mem_singleton, List.not_mem_nil,
    or_false]
  constructor
  · rintro (h | ⟨ep, h1, h2⟩ | h)
    · exact Or.inl h
    · exact Or.inr (Or.inl ⟨ep, h1, h2.symm⟩)
    · exact Or.inr (Or.inr h)
  · rintro (h | ⟨ep, h1, h2⟩ | h)
    · exact Or.inl h
    · exact Or.inr (Or.inl ⟨ep, h1, h2.symm⟩)
    · exact Or.inr (Or.inr h)

/-! ## States reached while serving -/

theorem reached_config {σ : Type} (env : Env σ) (rs : List Request) :
    (serveAll env (listening env) rs).config = (listening env).config :=
  serveAll_config env rs _

theorem reached_router {σ : Type} (env : Env σ) (rs : List Request) :
    (serveAll env (listening env) rs).router = (boot env).router :=
  congrArg Config.router (reached_config env rs)

theorem reached_metricPath {σ : Type} (env : Env σ) (rs : List Request) :
    (serveAll env (listening env) rs).monitor.metricPath = "/metrics" :=
  congrArg Config.metricPath (reached_config env rs)

theorem reached_level {σ : Type} (env : Env σ) (rs : List Request) :
    (serveAll env (listening env) rs).logger.level = .InfoLevel :=
  congrArg Config.level (reached_config env rs)

theorem reached_basePath {σ : Type} (env : Env σ) (rs : List Request) :
    (serveAll env (listening env) rs).swaggerInfo.BasePath = "/api/v1/employee" :=
  congrArg Config.docBasePath (reached_config env rs)

theorem reached_router_eq {σ : Type} (env : Env σ) (served : List Request) :
    (reached env served).router = (boot env).router := reached_router env served

theorem not_match_metrics (xs : List String) : matchPath metricsRoute.fullPath ("api" :: xs) = false := by
  simp [metricsRoute, matchPath]

theorem not_match_swagger (xs : List String) : matchPath swaggerRoute.fullPath ("api" :: xs) = false := by
  simp [swaggerRoute, matchPath]

/-- C1: a request whose path is under `/api/v1/` and that gin dispatches to a
route is dispatched to a route the registrar attached, and the chain of that
route is exactly metrics interceptor, recovery, logging and then the endpoint's
handler; this chain is what `serve` runs. -/
theorem api_request_chain {σ : Type} (env : Env σ) (served : List Request) (r : Request)
    (rt : Route) (hpath : "/api/v1/".data <+: r.Path.data)
    (hroute : (reached env served).router.dispatch r = .route rt) :
    ∃ ep ∈ env.endpoints, rt = employeeRoute ep ∧
      rt.handlers = [.monitorInterceptor, .recovery, .logging, .employee ep.handler] ∧
      serve env (reached env served) r =
        finish (runHandlers env
          [.monitorInterceptor, .recovery, .logging, .employee ep.handler]
          (routeContext r rt) (reached env served)) := by
  obtain ⟨rest, hrest⟩ := requestElems_under_api r.Path hpath
  obtain ⟨elems, he, hmem, _, hmatch⟩ := dispatch_route _ _ _ hroute
  rw [hrest] at he
  simp only [Option.some.injEq] at he
  subst he
  rw [reached_router_eq, mem_boot_trees] at hmem
  rcases hmem with h | ⟨ep, hep, h⟩ | h
  · rw [h, not_match_metrics] at hmatch
    exact absurd hmatch (by simp)
  · refine ⟨ep, hep, h, by rw [h]; rfl, ?_⟩
    unfold serve
    rw [hroute, h]
    rfl
  · rw [h, not_match_swagger] at hmatch
    exact absurd hmatch (by simp)

/-- C1 on the sample deployment: `GET /api/v1/employee/health`. -/
theorem api_request_chain_witness :
    "/api/v1/".data <+: healthRequest.Path.data ∧
    (reached sampleEnv []).router.dispatch healthRequest
      = .route (employeeRoute healthEndpoint) ∧
    ∃ ep ∈ sampleEnv.endpoints, employeeRoute healthEndpoint = employeeRoute ep ∧
      (employeeRoute healthEndpoint).handlers =
        [.monitorInterceptor, .recovery, .logging, .employee ep.handler] ∧
      serve sampleEnv (reached sampleEnv []) healthRequest =
        finish (runHandlers sampleEnv
          [.monitorInterceptor, .recovery, .logging, .employee ep.handler]
          (routeContext healthRequest
            (employeeRoute healthEndpoint)) (reached sampleEnv [])) :=
  ⟨by decide, by decide,
    api_request_chain sampleEnv [] healthRequest
      (employeeRoute healthEndpoint) (by decide) (by decide)⟩

/-! ## Running the middleware chain -/

theorem Logger.log_info (l : Logger) (line : LogLine) (h : l.level = .InfoLevel) :
    l.log .InfoLevel line = { l with lines := l.lines ++ [line] } := by
  simp [Logger.log, Logger.IsLevelEnabled, h]

/-- The three middleware of `main` around the rest of a chain, for a request
whose path is not the metric path: the fault of the rest, if any, stops at the
recovery middleware, the logging middleware writes its line, and the
interceptor records its observation. -/
theorem run_middleware {σ : Type} (env : Env σ) (rest : List HandlerFunc) (c : Context)
    (p : Process σ) (hm : c.Request.Path ≠ p.monitor.metricPath) :
    runHandlers env (.monitorInterceptor :: .recovery :: .logging :: rest) c p =
      (.returned,
        afterRecovery (runHandlers env rest c p).1 (runHandlers env rest c p).2.1,
        { (runHandlers env rest c p).2.2 with
          logger := (runHandlers env rest c p).2.2.logger.log .InfoLevel
            (.request (runHandlers env rest c p).2.1.Request.Method
              (runHandlers env rest c p).2.1.Request.Path (runHandlers env rest c p).2.1.status)
          monitor := (runHandlers env rest c p).2.2.monitor.ginMetricHandle
            (afterRecovery (runHandlers env rest c p).1 (runHandlers env rest c p).2.1) }) := by
  simp only [runHandlers, monitorInterceptor, Recovery, LoggingMiddleware, if_neg hm]
  rcases runHandlers env rest c p with ⟨f, c1, p1⟩
  cases f with
  | returned => rfl
  | panicking fault => cases fault <;> rfl

/-- The same for a request whose path is the metric path: no observation. -/
theorem run_middleware_metricPath {σ : Type} (env : Env σ) (rest : List HandlerFunc)
    (c : Context) (p : Process σ) (hm : c.Request.Path = p.monitor.metricPath) :
    runHandlers env (.monitorInterceptor :: .recovery :: .logging :: rest) c p =
      (.returned,
        afterRecovery (runHandlers env rest c p).1 (runHandlers env rest c p).2.1,
        { (runHandlers env rest c p).2.2 with
          logger := (runHandlers env rest c p).2.2.logger.log .InfoLevel
            (.request (runHandlers env rest c p).2.1.Request.Method
              (runHandlers env rest c p).2.1.Request.Path
              (runHandlers env rest c p).2.1.status) }) := by
  simp only [runHandlers, monitorInterceptor, Recovery, LoggingMiddleware, if_pos hm]
  rcases runHandlers env rest c p with ⟨f, c1, p1⟩
  cases f with
  | returned => rfl
  | panicking fault => cases fault <;> rfl

/-- What the client gets from the three middleware around the rest of a chain. -/
theorem run_middleware_response {σ : Type} (env : Env σ) (rest : List HandlerFunc)
    (c : Context) (p : Process σ) :
    (finish (runHandlers env (.monitorInterceptor :: .recovery :: .logging :: rest) c p)).1 =
      .response (afterRecovery (runHandlers env rest c p).1 (runHandlers env rest c p).2.1).status
        (afterRecovery (runHandlers env rest c p).1 (runHandlers env rest c p).2.1).body := by
  by_cases hm : c.Request.Path = p.monitor.metricPath
  · rw [run_middleware_metricPath env rest c p hm]; rfl
  · rw [run_middleware env rest c p hm]; rfl

theorem applyResult_client (res : HandlerResult) (r : Request) (rt : Route) :
    ServeResult.response
        (afterRecovery (applyResult res (routeContext r rt)).1
          (applyResult res (routeContext r rt)).2).status
        (afterRecovery (applyResult res (routeContext r rt)).1
          (applyResult res (routeContext r rt)).2).body = clientGets res := by
  cases res <;> rfl

theorem run_swagger {σ : Type} (env : Env σ) (c : Context) (p : Process σ) :
    runHandlers env [.swagger] c p =
      ((applyResult (env.render (swaggerSetHost p.swaggerInfo c.Request) c.Request) c).1,
        (applyResult (env.render (swaggerSetHost p.swaggerInfo c.Request) c.Request) c).2,
        { p with swaggerInfo := swaggerSetHost p.swaggerInfo c.Request }) := by
  simp only [runHandlers, swaggerHandler, swaggerRender]
  cases env.render (swaggerSetHost p.swaggerInfo c.Request) c.Request <;> rfl

theorem run_employee {σ : Type} (env : Env σ) (name : String) (c : Context) (p : Process σ) :
    runHandlers env [.employee name] c p =
      ((applyResult (env.employee name c.Request p.app).1 c).1,
        (applyResult (env.employee name c.Request p.app).1 c).2,
        { p with app := (env.employee name c.Request p.app).2 }) := by
  simp only [runHandlers, employeeHandler]
  rcases env.employee name c.Request p.app with ⟨res, a⟩
  cases res <;> rfl

/-- The response and the documentation host of a request served by the
documentation route. -/
theorem serve_swaggerRoute {σ : Type} (env : Env σ) (p : Process σ) (r : Request)
    (hd : p.router.dispatch r = .route swaggerRoute) :
    (serve env p r).1 = clientGets (env.render ⟨r.Host, p.swaggerInfo.BasePath⟩ r) ∧
      (serve env p r).2.swaggerInfo = ⟨r.Host, p.swaggerInfo.BasePath⟩ := by
  unfold serve
  rw [hd]
  constructor
  · show (finish (runHandlers env [.monitorInterceptor, .recovery, .logging, .swagger]
        (routeContext r swaggerRoute) p)).1 = _
    rw [run_middleware_response, run_swagger]
    exact applyResult_client (env.render ⟨r.Host, p.swaggerInfo.BasePath⟩ r) r swaggerRoute
  · show (finish (runHandlers env [.monitorInterceptor, .recovery, .logging, .swagger]
        (routeContext r swaggerRoute) p)).2.swaggerInfo = _
    rw [finish_snd]
    by_cases hm : (routeContext r swaggerRoute).Request.Path = p.monitor.metricPath
    · rw [run_middleware_metricPath env _ _ p hm, run_swagger]; rfl
    · rw [run_middleware env _ _ p hm, run_swagger]; rfl

theorem isDocRequest_iff {σ : Type} (env : Env σ) (served : List Request) (r : Request) :
    isDocRequest env r = true ↔ (reached env served).router.dispatch r = .route swaggerRoute := by
  rw [reached_router_eq]
  simp [isDocRequest]

theorem reached_snoc {σ : Type} (env : Env σ) (served : List Request) (r : Request) :
    reached env (served ++ [r]) = (serve env (reached env served) r).2 := by
  unfold reached
  rw [serveAll_append]
  rfl

theorem reached_swaggerBasePath {σ : Type} (env : Env σ) (served : List Request) :
    (reached env served).swaggerInfo.BasePath = "/api/v1/employee" :=
  reached_basePath env served

/-- C2: two documentation requests served one after the other, the first with
host `h1` and the second with host `h2`: each client gets what the renderer
`env.render` makes of `docs.SwaggerInfo` with the host of that very request
(the renderer's page; status 500 when the renderer raises a fault before it
writes).  The statement holds for every renderer, so the host the renderer is
called with is the request's own. -/
theorem doc_requests_render_own_host {σ : Type} (env : Env σ) (served : List Request)
    (h1 h2 : String) (r1 r2 : Request)
    (hd1 : isDocRequest env r1 = true) (hd2 : isDocRequest env r2 = true)
    (hh1 : r1.Host = h1) (hh2 : r2.Host = h2) :
    (serve env (reached env served) r1).1 =
        clientGets (env.render { Host := h1, BasePath := "/api/v1/employee" } r1) ∧
      (serve env (serve env (reached env served) r1).2 r2).1 =
        clientGets (env.render { Host := h2, BasePath := "/api/v1/employee" } r2) := by
  have a1 := serve_swaggerRoute env (reached env served) r1
    ((isDocRequest_iff env served r1).1 hd1)
  have a2 := serve_swaggerRoute env (reached env (served ++ [r1])) r2
    ((isDocRequest_iff env (served ++ [r1]) r2).1 hd2)
  rw [reached_swaggerBasePath, hh1] at a1
  rw [reached_swaggerBasePath, hh2, reached_snoc] at a2
  exact ⟨a1.1, a2.1⟩

/-- C2 on the sample deployment, whose renderer answers with the host it finds
in `docs.SwaggerInfo`: the first client gets `a.example`, the second `b.example`. -/
theorem doc_requests_render_own_host_witness :
    isDocRequest sampleEnv docsRequestA = true ∧
      isDocRequest sampleEnv docsRequestB = true ∧
      docsRequestA.Host = "a.example" ∧ docsRequestB.Host = "b.example" ∧
      (serve sampleEnv (reached sampleEnv []) docsRequestA).1 = .response 200 "a.example" ∧
      (serve sampleEnv (serve sampleEnv (reached sampleEnv []) docsRequestA).2
        docsRequestB).1 = .response 200 "b.example" :=
  ⟨by decide, by decide, rfl, rfl,
    (doc_requests_render_own_host sampleEnv [] "a.example" "b.example" docsRequestA
      docsRequestB (by decide) (by decide) rfl rfl).1,
    (doc_requests_render_own_host sampleEnv [] "a.example" "b.example" docsRequestA
      docsRequestB (by decide) (by decide) rfl rfl).2⟩

/-! ## The documentation host -/

theorem runHandlers_swaggerInfo {σ : Type} (env : Env σ) (hs : List HandlerFunc)
    (hno : HandlerFunc.swagger ∉ hs) :
    ∀ (c : Context) (p : Process σ), (runHandlers env hs c p).2.2.swaggerInfo = p.swaggerInfo :=
  runHandlers_frame env Process.swaggerInfo hs (fun _ _ _ => rfl) (fun _ _ _ => rfl)
    (fun h => absurd h hno) (fun _ _ _ => rfl)

theorem serve_other_swaggerInfo {σ : Type} (env : Env σ) (served : List Request) (r : Request)
    (hd : isDocRequest env r = false) :
    (serve env (reached env served) r).2.swaggerInfo = (reached env served).swaggerInfo := by
  have hnd : (reached env served).router.dispatch r ≠ .route swaggerRoute := by
    intro h
    rw [(isDocRequest_iff env served r).2 h] at hd
    exact absurd hd (by simp)
  unfold serve
  cases hdis : (reached env served).router.dispatch r with
  | route rt =>
    obtain ⟨_, _, hmem, _, _⟩ := dispatch_route _ _ _ hdis
    rw [reached_router_eq, mem_boot_trees] at hmem
    show (finish (runHandlers env rt.handlers (routeContext r rt)
      (reached env served))).2.swaggerInfo = _
    rw [finish_snd]
    apply runHandlers_swaggerInfo
    rcases hmem with h | ⟨ep, _, h⟩ | h
    · rw [h]; simp [metricsRoute]
    · rw [h]; simp [employeeRoute]
    · rw [h] at hdis; exact absurd hdis hnd
  | redirect => rfl
  | noRoute =>
    show (finish (serveError env (reached env served).router.allNoRoute r
      (reached env served))).2.swaggerInfo = _
    rw [finish_snd, serveError_process, reached_router_eq, boot_router]
    apply runHandlers_swaggerInfo
    simp [middlewareChain]

theorem reached_host_last {σ : Type} (env : Env σ) (served : List Request) :
    ∀ d, (served.filter (fun r => isDocRequest env r)).getLast? = some d →
      (reached env served).swaggerInfo.Host = d.Host := by
  induction served using List.reverseRecOn with
  | nil => intro d h; simp at h
  | append_singleton l a ih =>
    intro d h
    rw [reached_snoc]
    rw [List.filter_append] at h
    cases hdoc : isDocRequest env a with
    | true =>
      have hf : List.filter (fun r => isDocRequest env r) [a] = [a] := by simp [hdoc]
      rw [hf] at h
      simp at h
      subst h
      have := (serve_swaggerRoute env (reached env l) a ((isDocRequest_iff env l a).1 hdoc)).2
      rw [this]
    | false =>
      have hf : List.filter (fun r => isDocRequest env r) [a] = [] := by simp [hdoc]
      rw [hf, List.append_nil] at h
      rw [serve_other_swaggerInfo env l a hdoc]
      exact ih d h

/-- C10: while requests are served one after the other, `docs.SwaggerInfo.Host`
is the host header of the last documentation request served so far (whatever
that header is, the empty string included); a request served by any other
route, by the no-route chain or by a redirect leaves it as it was; and a second
documentation request with the same host header leaves `docs.SwaggerInfo` as
the first one set it. -/
theorem doc_host_last_writer {σ : Type} (env : Env σ) (served : List Request) :
    (∀ d, (served.filter (fun r => isDocRequest env r)).getLast? = some d →
        (reached env served).swaggerInfo.Host = d.Host) ∧
      (∀ r, isDocRequest env r = false →
        (serve env (reached env served) r).2.swaggerInfo.Host =
          (reached env served).swaggerInfo.Host) ∧
      (∀ r r2, isDocRequest env r = true → isDocRequest env r2 = true → r2.Host = r.Host →
        (serve env (serve env (reached env served) r).2 r2).2.swaggerInfo =
          (serve env (reached env served) r).2.swaggerInfo) := by
  refine ⟨reached_host_last env served, ?_, ?_⟩
  · intro r hd
    rw [serve_other_swaggerInfo env served r hd]
  · intro r r2 hd hd2 hh
    have a1 := (serve_swaggerRoute env (reached env served) r
      ((isDocRequest_iff env served r).1 hd)).2
    have a2 := (serve_swaggerRoute env (reached env (served ++ [r])) r2
      ((isDocRequest_iff env (served ++ [r]) r2).1 hd2)).2
    rw [reached_snoc] at a2
    rw [a2, a1, hh]

/-- C10 on the sample deployment: the last documentation request has an empty
host header; a request for `/metrics` leaves the host. -/
theorem doc_host_last_writer_witness :
    (reached sampleEnv
        [docsRequestA,
         healthRequest,
         docsRequestNoHost,
         metricsRequest]).swaggerInfo.Host = "" ∧
      (serve sampleEnv (reached sampleEnv [docsRequestA])
          metricsRequest).2.swaggerInfo.Host = "a.example" :=
  ⟨(doc_host_last_writer sampleEnv
      [docsRequestA,
       healthRequest,
       docsRequestNoHost,
       metricsRequest]).1
      docsRequestNoHost (by decide),
   ((doc_host_last_writer sampleEnv [docsRequestA]).2.1
      metricsRequest (by decide)).trans (by decide)⟩

/-! ## Faults -/

theorem serveWith_config {σ : Type} (env : Env σ) (p : Process σ) (r : Request) (d : Dispatch) :
    (serveWith env p r d).2.config = p.config := by
  cases d with
  | route rt =>
    show (finish (runHandlers env rt.handlers (routeContext r rt) p)).2.config = _
    rw [finish_snd, runHandlers_config]
  | redirect => rfl
  | noRoute =>
    show (finish (serveError env p.router.allNoRoute r p)).2.config = _
    rw [finish_snd, serveError_process, runHandlers_config]

/-- The chain of a route of `main` that holds the recovery middleware: the
three middleware, then the route's own handler, which is the documentation
closure or an employee handler. -/
theorem recovery_route_chain {σ : Type} (env : Env σ) (p : Process σ) (r : Request) (rt : Route)
    (hmem : rt ∈ (boot env).router.trees) (hrec : HandlerFunc.recovery ∈ rt.handlers) :
    ∃ h, rt.handlers = [.monitorInterceptor, .recovery, .logging, h] ∧
      handlerRun env p r rt = runHandlers env [h] (routeContext r rt) p ∧
      HandlerFunc.monitorInterceptor ∉ [h] ∧ HandlerFunc.logging ∉ [h] ∧
      ∃ res, (runHandlers env [h] (routeContext r rt) p).1 =
          (applyResult res (routeContext r rt)).1 ∧
        (runHandlers env [h] (routeContext r rt) p).2.1 =
          (applyResult res (routeContext r rt)).2 := by
  rw [mem_boot_trees] at hmem
  rcases hmem with h | ⟨ep, _, h⟩ | h
  · subst h; simp [metricsRoute] at hrec
  · subst h
    refine ⟨.employee ep.handler, rfl, rfl, by simp, by simp, ?_⟩
    rw [run_employee]
    exact ⟨_, rfl, rfl⟩
  · subst h
    refine ⟨.swagger, rfl, rfl, by simp, by simp, ?_⟩
    rw [run_swagger]
    exact ⟨_, rfl, rfl⟩

/-- What the client of a route under the recovery middleware gets, in terms of
how the route's own handler ended. -/
theorem serveWith_recovery_route {σ : Type} (env : Env σ) (p : Process σ) (r : Request)
    (rt : Route) (hmem : rt ∈ (boot env).router.trees)
    (hrec : HandlerFunc.recovery ∈ rt.handlers) :
    (serveWith env p r (.route rt)).1 =
      .response
        (afterRecovery (handlerRun env p r rt).1 (handlerRun env p r rt).2.1).status
        (afterRecovery (handlerRun env p r rt).1 (handlerRun env p r rt).2.1).body := by
  obtain ⟨h, hh, hrun, _, _, _⟩ := recovery_route_chain env p r rt hmem hrec
  show (finish (runHandlers env rt.handlers (routeContext r rt) p)).1 = _
  rw [hh, run_middleware_response, hrun]

/-- A request whose route handler returns gets that handler's response, on
every route of `main`. -/
theorem serveWith_route_returned {σ : Type} (env : Env σ) (p : Process σ) (r : Request)
    (rt : Route) (hmem : rt ∈ (boot env).router.trees)
    (hret : (handlerRun env p r rt).1 = .returned) :
    (serveWith env p r (.route rt)).1 =
      .response (handlerRun env p r rt).2.1.status (handlerRun env p r rt).2.1.body := by
  by_cases hrec : HandlerFunc.recovery ∈ rt.handlers
  · rw [serveWith_recovery_route env p r rt hmem hrec, hret]
    rfl
  · rw [mem_boot_trees] at hmem
    rcases hmem with h | ⟨ep, _, h⟩ | h
    · subst h
      show (finish (runHandlers env [.monitorInterceptor, .metricsEndpoint]
        (routeContext r metricsRoute) p)).1 = _
      simp only [runHandlers, monitorInterceptor, metricsHandler, thenNext, handlerRun,
        metricsRoute, List.getLast?, List.getLast, Option.toList]
      split <;> rfl
    · subst h; simp [employeeRoute] at hrec
    · subst h; simp [swaggerRoute] at hrec

theorem applyResult_unwritten_fault (res : HandlerResult) (c : Context) (err : String)
    (hf : (applyResult res c).1 = .panicking (.panic err))
    (hw : (applyResult res c).2.written = false) : (applyResult res c).2 = c := by
  cases res <;> simp_all [applyResult]

theorem run_recovery_returns {σ : Type} (env : Env σ) (rest : List HandlerFunc) (c : Context)
    (p : Process σ) : (runHandlers env (.recovery :: rest) c p).1 = .returned := by
  simp only [runHandlers, Recovery]
  split <;> rfl

/-- C3, as amended: a route whose chain holds the recovery middleware (the
`/api/v1` routes and `/swagger/*any`), whichever of them the router selects for
the request, and a handler that raises a fault which is not a broken connection
before it has written the response header: the client gets status 500, the
chain from the recovery middleware on returns normally (the fault goes no
further), and afterwards every request whose route handler returns gets that
handler's response. -/
theorem fault_is_recovered {σ : Type} (env : Env σ) (served : List Request) (r : Request)
    (rt : Route) (err : String)
    (hmem : rt ∈ (reached env served).router.trees)
    (hrec : HandlerFunc.recovery ∈ rt.handlers)
    (hfault : (handlerRun env (reached env served) r rt).1 = .panicking (.panic err))
    (hunwritten : (handlerRun env (reached env served) r rt).2.1.written = false) :
    (serveWith env (reached env served) r (.route rt)).1 = .response 500 "" ∧
      (runHandlers env rt.handlers.tail (routeContext r rt) (reached env served)).1 = .returned ∧
      ∀ r2 rt2, rt2 ∈ (serveWith env (reached env served) r (.route rt)).2.router.trees →
        (handlerRun env (serveWith env (reached env served) r (.route rt)).2 r2 rt2).1
          = .returned →
        (serveWith env (serveWith env (reached env served) r (.route rt)).2 r2 (.route rt2)).1 =
          .response
            (handlerRun env (serveWith env (reached env served) r (.route rt)).2 r2 rt2).2.1.status
            (handlerRun env (serveWith env (reached env served) r (.route rt)).2 r2 rt2).2.1.body
    := by
  rw [reached_router_eq] at hmem
  refine ⟨?_, ?_, ?_⟩
  · rw [serveWith_recovery_route env _ r rt hmem hrec]
    obtain ⟨h, _, hrun, _, _, res, h1, h2⟩ :=
      recovery_route_chain env (reached env served) r rt hmem hrec
    rw [hrun] at hfault hunwritten ⊢
    rw [h1] at hfault ⊢
    rw [h2] at hunwritten ⊢
    rw [applyResult_unwritten_fault res _ err hfault hunwritten, hfault]
    rfl
  · obtain ⟨h, hh, _⟩ := recovery_route_chain env (reached env served) r rt hmem hrec
    rw [hh]
    exact run_recovery_returns env _ _ _
  · intro r2 rt2 hmem2 hret
    have hrouter : (serveWith env (reached env served) r (.route rt)).2.router =
        (boot env).router := by
      have := congrArg Config.router (serveWith_config env (reached env served) r (.route rt))
      simp only [Process.config] at this
      rw [this, reached_router_eq]
    rw [hrouter] at hmem2
    exact serveWith_route_returned env _ r2 rt2 hmem2 hret

/-- C3 (amended) on the sample deployment: `create` raises a fault before it
writes and is answered with 500; the next request for `health` is answered
with 200. -/
theorem fault_is_recovered_witness :
    employeeRoute createEndpoint ∈ (reached sampleEnv []).router.trees ∧
      (handlerRun sampleEnv (reached sampleEnv []) createRequest
        (employeeRoute createEndpoint)).1 = .panicking (.panic "storage unavailable") ∧
      (reached sampleEnv []).router.dispatch createRequest =
        .route (employeeRoute createEndpoint) ∧
      (serve sampleEnv (reached sampleEnv []) createRequest).1 = .response 500 "" ∧
      (serve sampleEnv (serve sampleEnv (reached sampleEnv []) createRequest).2
        healthRequest).1 = .response 200 "health" :=
  ⟨by decide, by decide, by decide,
    (fault_is_recovered sampleEnv [] createRequest (employeeRoute createEndpoint)
      "storage unavailable" (by decide) (by decide) (by decide) (by decide)).1,
    (fault_is_recovered sampleEnv [] createRequest (employeeRoute createEndpoint)
      "storage unavailable" (by decide) (by decide) (by decide) (by decide)).2.2
      healthRequest (employeeRoute healthEndpoint) (by decide) (by decide)⟩

/-- C3 as stated fails in two cases.  The handler of `export` writes status 200
and part of its body and then raises a fault: the header is sent, the recovery
middleware cannot change it, and the client gets 200.  The handler of `upload`
fails with a broken connection: the recovery middleware only aborts, and the
status stays 200.  Both routes are registered after the recovery middleware. -/
theorem written_response_keeps_status :
    (reached sampleEnv []).router.dispatch exportRequest = .route (employeeRoute exportEndpoint) ∧
      HandlerFunc.recovery ∈ (employeeRoute exportEndpoint).handlers ∧
      (handlerRun sampleEnv (reached sampleEnv []) exportRequest
        (employeeRoute exportEndpoint)).1 = .panicking (.panic "encoder failed") ∧
      (serve sampleEnv (reached sampleEnv []) exportRequest).1 = .response 200 "id,name" ∧
      (reached sampleEnv []).router.dispatch uploadRequest = .route (employeeRoute uploadEndpoint) ∧
      HandlerFunc.recovery ∈ (employeeRoute uploadEndpoint).handlers ∧
      (handlerRun sampleEnv (reached sampleEnv []) uploadRequest
        (employeeRoute uploadEndpoint)).1 = .panicking (.brokenPipe "write: broken pipe") ∧
      (serve sampleEnv (reached sampleEnv []) uploadRequest).1 = .response 200 "" := by
  decide

/-! ## Observations and log lines -/

theorem runHandlers_monitor {σ : Type} (env : Env σ) (hs : List HandlerFunc)
    (hno : HandlerFunc.monitorInterceptor ∉ hs) :
    ∀ (c : Context) (p : Process σ), (runHandlers env hs c p).2.2.monitor = p.monitor :=
  runHandlers_frame env Process.monitor hs (fun h => absurd h hno) (fun _ _ _ => rfl)
    (fun _ _ _ => rfl) (fun _ _ _ => rfl)

theorem runHandlers_logger {σ : Type} (env : Env σ) (hs : List HandlerFunc)
    (hno : HandlerFunc.logging ∉ hs) :
    ∀ (c : Context) (p : Process σ), (runHandlers env hs c p).2.2.logger = p.logger :=
  runHandlers_frame env Process.logger hs (fun _ _ _ => rfl) (fun h => absurd h hno)
    (fun _ _ _ => rfl) (fun _ _ _ => rfl)

theorem Context.AbortWithStatus_request (c : Context) (code : Nat) :
    (c.AbortWithStatus code).Request = c.Request := by
  unfold Context.AbortWithStatus
  split <;> rfl

theorem applyResult_request (res : HandlerResult) (c : Context) :
    (applyResult res c).2.Request = c.Request := by
  cases res <;> rfl

theorem thenNext_request {σ : Type} (o : Outcome σ) (next : Next σ)
    (h : ∀ c p, (next c p).2.1.Request = c.Request) :
    (thenNext o next).2.1.Request = o.2.1.Request := by
  rcases o with ⟨f, c, p⟩
  cases f
  · exact h c p
  · rfl

theorem runHandlers_request {σ : Type} (env : Env σ) (hs : List HandlerFunc) :
    ∀ (c : Context) (p : Process σ), (runHandlers env hs c p).2.1.Request = c.Request := by
  induction hs with
  | nil => intro c p; rfl
  | cons h rest ih =>
    intro c p
    cases h with
    | monitorInterceptor =>
      simp only [runHandlers, monitorInterceptor]
      split
      · exact ih c p
      · have h1 := ih c p
        split <;> rename_i heq <;> rw [heq] at h1 <;> exact h1
    | metricsEndpoint =>
      simp only [runHandlers, thenNext, metricsHandler]
      rw [ih]
    | recovery =>
      simp only [runHandlers, Recovery]
      have h1 := ih c p
      split <;> rename_i heq <;> rw [heq] at h1
      · exact h1
      · exact h1
      · rw [Context.AbortWithStatus_request]; exact h1
    | logging =>
      simp only [runHandlers, LoggingMiddleware]
      exact ih c p
    | swagger =>
      show (thenNext (swaggerHandler env c p) (runHandlers env rest)).2.1.Request = _
      rw [thenNext_request _ _ ih]
      exact applyResult_request _ c
    | employee name =>
      show (thenNext (employeeHandler env name c p) (runHandlers env rest)).2.1.Request = _
      rw [thenNext_request _ _ ih]
      exact applyResult_request _ c

/-- The full middleware chain around handlers that neither observe nor log, for
a request whose path is not the metric path: exactly one observation and exactly
one log line, however the handlers end. -/
theorem chain_observes_and_logs {σ : Type} (env : Env σ) (rest : List HandlerFunc) (c : Context)
    (p : Process σ) (hm : c.Request.Path ≠ p.monitor.metricPath)
    (hl : p.logger.level = .InfoLevel)
    (h1 : HandlerFunc.monitorInterceptor ∉ rest) (h2 : HandlerFunc.logging ∉ rest) :
    (∃ o,
        (runHandlers env (.monitorInterceptor :: .recovery :: .logging :: rest) c
          p).2.2.monitor.observations = p.monitor.observations ++ [o]) ∧
      ∃ status,
        (runHandlers env (.monitorInterceptor :: .recovery :: .logging :: rest) c
          p).2.2.logger.lines =
            p.logger.lines ++ [.request c.Request.Method c.Request.Path status] := by
  rw [run_middleware env rest c p hm]
  have hmon := runHandlers_monitor env rest h1 c p
  have hlog := runHandlers_logger env rest h2 c p
  have hreq := runHandlers_request env rest c p
  constructor
  · show ∃ o, ((runHandlers env rest c p).2.2.monitor.ginMetricHandle _).observations = _
    rw [hmon]
    exact ⟨_, rfl⟩
  · refine ⟨(runHandlers env rest c p).2.1.status, ?_⟩
    show ((runHandlers env rest c p).2.2.logger.log .InfoLevel _).lines = _
    rw [Logger.log_info _ _ (by rw [hlog]; exact hl), hlog, hreq]

theorem splitAux_ne_nil (cs : List Char) : ∀ cur, splitAux cs cur ≠ [] := by
  induction cs with
  | nil => intro cur; simp [splitAux]
  | cons c cs ih =>
    intro cur
    simp only [splitAux]
    split
    · simp
    · exact ih _

theorem requestElems_single (path : String) (e : String)
    (h : requestElems path = some [e]) : path = "/" ++ e := by
  unfold requestElems at h
  split at h
  · rename_i cs hcs
    simp only [Option.some.injEq] at h
    rcases splitAux_cons_inv cs [] _ _ h with ⟨_, h2⟩ | ⟨_, cs', _, _, h3⟩
    · apply String.ext
      rw [hcs, h2]
      simp
    · exact absurd h3 (splitAux_ne_nil _ _)
  · simp at h

/-- The route `GET /metrics` is selected for the path `/metrics` only. -/
theorem dispatch_metricsRoute (e : Engine) (r : Request)
    (h : e.dispatch r = .route metricsRoute) : r.Path = "/metrics" := by
  obtain ⟨elems, he, _, _, hmatch⟩ := dispatch_route _ _ _ h
  obtain ⟨xs, h1, h2⟩ := matchPath_static "metrics" [] elems (by decide) (by decide) hmatch
  cases xs with
  | nil =>
    rw [h1] at he
    exact requestElems_single _ _ he
  | cons x xs => simp [matchPath] at h2

/-- C5, as amended.  Take a request whose path is not `/metrics` and for which
the router runs a handler chain that `main` built after it attached the
middleware: the chain of an `/api/v1` route or of `/swagger/*any`, whichever
registered route the router selects, or the no-route chain.  Then exactly one
metrics observation is recorded and exactly one request log line is written,
whatever the outcome.  A request for `/metrics` served by the route
`GET /metrics` is answered with status 200 and the exposition text and leaves
the process as it was (no observation, no log line), and so does a request the
router answers with its own redirect. -/
theorem observed_and_logged_once {σ : Type} (env : Env σ) (served : List Request) (r : Request) :
    (r.Path ≠ "/metrics" →
      ∀ d, (d = .noRoute ∨
          ∃ rt ∈ (reached env served).router.trees, rt ≠ metricsRoute ∧ d = .route rt) →
        (∃ o, (serveWith env (reached env served) r d).2.monitor.observations =
            (reached env served).monitor.observations ++ [o]) ∧
          ∃ status, (serveWith env (reached env served) r d).2.logger.lines =
            (reached env served).logger.lines ++ [.request r.Method r.Path status]) ∧
      (r.Path = "/metrics" →
        serveWith env (reached env served) r (.route metricsRoute) =
          (.response 200 (env.exposition (reached env served).monitor), reached env served)) ∧
      (serveWith env (reached env served) r .redirect).2 = reached env served := by
  have hmp : (reached env served).monitor.metricPath = "/metrics" := reached_metricPath env served
  have hlv : (reached env served).logger.level = .InfoLevel := reached_level env served
  refine ⟨?_, ?_, rfl⟩
  · intro hpath d hd
    rcases hd with hd | ⟨rt, hmem, hne, hd⟩
    · subst hd
      show (∃ o, (finish (serveError env (reached env served).router.allNoRoute r
          (reached env served))).2.monitor.observations = _) ∧
        ∃ status, (finish (serveError env (reached env served).router.allNoRoute r
          (reached env served))).2.logger.lines = _
      rw [finish_snd, serveError_process, reached_router_eq, boot_router]
      exact chain_observes_and_logs env [] (noRouteContext r) (reached env served)
        (by rw [hmp]; exact hpath) hlv (by simp) (by simp)
    · subst hd
      rw [reached_router_eq] at hmem
      have hrec : HandlerFunc.recovery ∈ rt.handlers := by
        rw [mem_boot_trees] at hmem
        rcases hmem with h | ⟨ep, _, h⟩ | h
        · exact absurd h hne
        · subst h; simp [employeeRoute]
        · subst h; simp [swaggerRoute]
      obtain ⟨h, hh, _, h1, h2, _⟩ :=
        recovery_route_chain env (reached env served) r rt hmem hrec
      show (∃ o, (finish (runHandlers env rt.handlers (routeContext r rt)
          (reached env served))).2.monitor.observations = _) ∧
        ∃ status, (finish (runHandlers env rt.handlers (routeContext r rt)
          (reached env served))).2.logger.lines = _
      rw [finish_snd, hh]
      exact chain_observes_and_logs env [h] (routeContext r rt) (reached env served)
        (by rw [hmp]; exact hpath) hlv h1 h2
  · intro hpath
    have hp : (routeContext r metricsRoute).Request.Path =
        (reached env served).monitor.metricPath := by
      rw [hmp]; exact hpath
    show finish (runHandlers env [.monitorInterceptor, .metricsEndpoint]
      (routeContext r metricsRoute) (reached env served)) = _
    simp only [runHandlers, monitorInterceptor, if_pos hp, metricsHandler, thenNext, finish]

/-- C5 (amended) on the sample deployment: the request for `create`, whose
handler raises a fault, is observed once, with status 500, and logged once. -/
theorem observed_and_logged_once_witness :
    createRequest.Path ≠ "/metrics" ∧
      employeeRoute createEndpoint ∈ (reached sampleEnv []).router.trees ∧
      employeeRoute createEndpoint ≠ metricsRoute ∧
      (reached sampleEnv []).router.dispatch createRequest =
        .route (employeeRoute createEndpoint) ∧
      (serve sampleEnv (reached sampleEnv []) createRequest).2.monitor.observations =
        [{ path := ["api", "v1", "employee", "create"], method := "POST", status := 500 }] ∧
      (serve sampleEnv (reached sampleEnv []) createRequest).2.logger.lines.length = 1 ∧
      (∃ o, (serveWith sampleEnv (reached sampleEnv []) createRequest
          (.route (employeeRoute createEndpoint))).2.monitor.observations =
        (reached sampleEnv []).monitor.observations ++ [o]) ∧
      ∃ status, (serveWith sampleEnv (reached sampleEnv []) createRequest
          (.route (employeeRoute createEndpoint))).2.logger.lines =
        (reached sampleEnv []).logger.lines ++
          [.request createRequest.Method createRequest.Path status] :=
  ⟨by decide, by decide, by decide, by decide, by decide, by decide,
    ((observed_and_logged_once sampleEnv [] createRequest).1 (by decide)
      (.route (employeeRoute createEndpoint))
      (Or.inr ⟨employeeRoute createEndpoint, by decide, by decide, rfl⟩)).1,
    ((observed_and_logged_once sampleEnv [] createRequest).1 (by decide)
      (.route (employeeRoute createEndpoint))
      (Or.inr ⟨employeeRoute createEndpoint, by decide, by decide, rfl⟩)).2⟩

/-- C5 as stated fails for `GET /metrics`: the request is answered with status
200 and the exposition text, and neither an observation nor a request log line
is recorded for it.  It also fails for a request the router redirects by
itself, here `GET /api/v1/employee/search//`: the answer is 301, no handler
runs, and nothing is recorded. -/
theorem metrics_request_not_recorded :
    (reached sampleEnv []).router.dispatch metricsRequest = .route metricsRoute ∧
      (serve sampleEnv (reached sampleEnv []) metricsRequest).1 =
        .response 200 "# TYPE gin_request_total counter" ∧
      (serve sampleEnv (reached sampleEnv []) metricsRequest).2.monitor.observations =
        (reached sampleEnv []).monitor.observations ∧
      (serve sampleEnv (reached sampleEnv []) metricsRequest).2.logger.lines =
        (reached sampleEnv []).logger.lines ∧
      ¬ ((∃ o, (serve sampleEnv (reached sampleEnv []) metricsRequest).2.monitor.observations =
          (reached sampleEnv []).monitor.observations ++ [o]) ∧
        ∃ line, (serve sampleEnv (reached sampleEnv []) metricsRequest).2.logger.lines =
          (reached sampleEnv []).logger.lines ++ [line]) ∧
      (reached sampleEnv []).router.dispatch doubleSlashRequest = .redirect ∧
      (serve sampleEnv (reached sampleEnv []) doubleSlashRequest).1 = .response 301 "" ∧
      (serve sampleEnv (reached sampleEnv []) doubleSlashRequest).2.monitor.observations =
        (reached sampleEnv []).monitor.observations ∧
      (serve sampleEnv (reached sampleEnv []) doubleSlashRequest).2.logger.lines =
        (reached sampleEnv []).logger.lines := by
  refine ⟨by decide, by decide, by decide, by decide, ?_, by decide, by decide, by decide,
    by decide⟩
  rintro ⟨⟨o, ho⟩, _⟩
  have h : (serve sampleEnv (reached sampleEnv []) metricsRequest).2.monitor.observations =
      (reached sampleEnv []).monitor.observations := by decide
  rw [h] at ho
  simp at ho

/-! ## The configuration -/

/-- C6: once `main` has configured the monitor, and for as long as the server
serves, the metric path is `/metrics`, the slow-request threshold is 1 (second)
and the bucket boundaries are the list 0.1, 0.3, 1.2, 5, 10; the exposition
route registered by `monitor.Use` is `GET /metrics`. -/
theorem monitor_configuration {σ : Type} (env : Env σ) (served : List Request) :
    (reached env served).monitor.metricPath = "/metrics" ∧
      (reached env served).monitor.slowTime = 1 ∧
      (reached env served).monitor.reqDuration = [0.1, 0.3, 1.2, 5, 10] ∧
      metricsRoute ∈ (reached env served).router.trees := by
  refine ⟨reached_metricPath env served,
    congrArg Config.slowTime (reached_config env served),
    congrArg Config.reqDuration (reached_config env served), ?_⟩
  rw [reached_router_eq, mem_boot_trees]
  exact Or.inl rfl

/-- C7: serving any sequence of requests leaves the configuration as it was
when `main` started to listen: one listener on `:8080`, the group `/api/v1`
handed to the registrar, the documentation base path `/api/v1/employee`, the
metric path `/metrics`, the slow threshold 1, the bucket list, and the router
with its routes and chains.  A documentation request writes the host of
`docs.SwaggerInfo` and leaves its base path. -/
theorem configuration_invariant {σ : Type} (env : Env σ) (served : List Request) :
    (reached env served).config = (listening env).config ∧
      (reached env served).listenCalls = [":8080"] ∧
      (reached env served).registrarCalls.map RouterGroup.basePath = [["api", "v1"]] ∧
      (reached env served).swaggerInfo.BasePath = "/api/v1/employee" ∧
      (reached env served).monitor.metricPath = "/metrics" ∧
      (reached env served).monitor.slowTime = 1 ∧
      (reached env served).monitor.reqDuration = [0.1, 0.3, 1.2, 5, 10] ∧
      (∀ r, isDocRequest env r = true →
        (serve env (reached env served) r).2.swaggerInfo =
          { (reached env served).swaggerInfo with Host := r.Host }) := by
  have hc := reached_config env served
  refine ⟨hc, congrArg Config.listenCalls hc, ?_, congrArg Config.docBasePath hc,
    congrArg Config.metricPath hc, congrArg Config.slowTime hc,
    congrArg Config.reqDuration hc, ?_⟩
  · have := congrArg Config.registrarCalls hc
    simp only [Process.config] at this
    unfold reached
    rw [this]
    have h2 : joinPaths [""] "/api/v1" = ["api", "v1"] := by decide
    simp [listening, boot, callRegistrar, Process.Run, RouterGroup.Group, Monitor.Use,
      Engine.Use, Engine.GET, RouterGroup.handle, New, h2]
  · intro r hd
    exact (serve_swaggerRoute env _ r ((isDocRequest_iff env served r).1 hd)).2

/-! ## The listener -/

/-- C4: `main` ends with exit status 1 and a fatal log line exactly when
`Run(":8080")` returns an error; then `Run` was called once, with `:8080`, and
the line logged last is `Failed to start server: ` followed by the error. -/
theorem fatal_iff_listen_error {σ : Type} (env : Env σ) :
    ((∃ p msg, main env = .exited 1 p ∧ p.logger.lines.getLast? = some (.fatal msg)) ↔
        ∃ err, env.listen ":8080" = .returns (some err)) ∧
      (∀ code p, main env = .exited code p → code ≠ 0 →
        ∃ err, env.listen ":8080" = .returns (some err)) ∧
      ∀ err, env.listen ":8080" = .returns (some err) →
        ∃ p, main env = .exited 1 p ∧ p.listenCalls = [":8080"] ∧
          p.logger.lines = env.logger0.lines ++ [.fatal ("Failed to start server: " ++ err)] := by
  have key : ∀ err, env.listen ":8080" = .returns (some err) →
      ∃ p, main env = .exited 1 p ∧ p.listenCalls = [":8080"] ∧
        p.logger.lines = env.logger0.lines ++ [.fatal ("Failed to start server: " ++ err)] := by
    intro err h
    refine ⟨_, by simp only [main, h, Fatalf]; rfl, rfl, ?_⟩
    simp [listening, Process.Run, boot, init, Logger.log, Logger.IsLevelEnabled, Level.toNat]
  refine ⟨⟨?_, ?_⟩, ?_, key⟩
  · rintro ⟨p, msg, h, _⟩
    unfold main at h
    split at h
    · rename_i err herr; exact ⟨err, herr⟩
    · simp at h
    · simp at h
  · rintro ⟨err, h⟩
    obtain ⟨p, h1, _, h3⟩ := key err h
    exact ⟨p, "Failed to start server: " ++ err, h1, by rw [h3]; simp⟩
  · intro code p h hcode
    unfold main at h
    split at h
    · rename_i err herr; exact ⟨err, herr⟩
    · simp only [Execution.exited.injEq] at h
      exact absurd h.1.symm hcode
    · simp at h

/-- C4 on a machine where port 8080 is taken. -/
theorem fatal_iff_listen_error_witness :
    ∃ p, main busyEnv = .exited 1 p ∧ p.listenCalls = [":8080"] ∧
      p.logger.lines = busyEnv.logger0.lines ++
        [.fatal ("Failed to start server: " ++ "listen tcp :8080: bind: address already in use")] :=
  (fatal_iff_listen_error busyEnv).2.2 "listen tcp :8080: bind: address already in use" rfl

/-! ## The employee routes -/

/-- Why the relative paths of the endpoints matter: gin joins paths with
`path.Join`, so a relative path with `..` elements leaves the group's base path. -/
theorem joinPaths_dotdot : joinPaths ["api", "v1"] "../../admin" = ["admin"] := by decide

theorem listening_registrarCalls {σ : Type} (env : Env σ) :
    (listening env).registrarCalls = [v1Group] := by
  have h2 : joinPaths [""] "/api/v1" = ["api", "v1"] := by decide
  simp [listening, boot, callRegistrar, Process.Run, RouterGroup.Group, Monitor.Use, Engine.Use,
    Engine.GET, RouterGroup.handle, RouterGroup.combineHandlers, New, h2, v1Group]

/-- C8, as amended: `main` calls the registrar exactly once, with the group
whose base path is `/api/v1` and whose middleware is the chain attached before;
the routes with an employee handler are exactly those the registrar attached;
and every endpoint whose relative path has no `..` element gets a full path
that starts with the elements `api`, `v1` and is served only for request paths
that start with `/api/v1`. -/
theorem employee_routes_under_v1 {σ : Type} (env : Env σ) :
    (listening env).registrarCalls = [v1Group] ∧
      (∀ rt ∈ (listening env).router.trees, (∃ name, HandlerFunc.employee name ∈ rt.handlers) →
        ∃ ep ∈ env.endpoints, rt = employeeRoute ep) ∧
      (∀ ep ∈ env.endpoints, ".." ∉ splitPath ep.relativePath →
        ["api", "v1"] <+: (employeeRoute ep).fullPath ∧
          ∀ served r, (reached env served).router.dispatch r = .route (employeeRoute ep) →
            "/api/v1".data <+: r.Path.data) := by
  refine ⟨listening_registrarCalls env, ?_, ?_⟩
  · intro rt hmem ⟨name, hname⟩
    have hmem : rt ∈ (boot env).router.trees := hmem
    rw [mem_boot_trees] at hmem
    rcases hmem with h | ⟨ep, hep, h⟩ | h
    · subst h; simp [metricsRoute] at hname
    · exact ⟨ep, hep, h⟩
    · subst h; simp [swaggerRoute] at hname
  · intro ep _ hclean
    have hpre : ["api", "v1"] <+: (employeeRoute ep).fullPath := joinPaths_v1 _ hclean
    refine ⟨hpre, ?_⟩
    intro served r hroute
    obtain ⟨elems, he, _, _, hmatch⟩ := dispatch_route _ _ _ hroute
    obtain ⟨tail, htail⟩ := hpre
    rw [← htail] at hmatch
    obtain ⟨xs, hxs⟩ := matchPath_prefix_v1 _ _ hmatch
    rw [hxs] at he
    exact requestElems_api_inv _ _ he

/-- C8 (amended) on the sample deployment: the group handed to the registrar,
the route table `main` builds, and the health endpoint under `/api/v1`. -/
theorem employee_routes_under_v1_witness :
    (listening sampleEnv).registrarCalls = [v1Group] ∧
      (listening sampleEnv).router.trees.map Route.fullPath =
        [["metrics"], ["api", "v1", "employee", ":id"], ["api", "v1", "employee", "health"],
         ["api", "v1", "employee", "create"], ["api", "v1", "employee", "search", ":id"],
         ["api", "v1", "employee", "export"], ["api", "v1", "employee", "upload"],
         ["swagger", "*any"]] ∧
      ["api", "v1"] <+: (employeeRoute healthEndpoint).fullPath ∧
      "/api/v1".data <+: healthRequest.Path.data :=
  ⟨(employee_routes_under_v1 sampleEnv).1, by decide,
    ((employee_routes_under_v1 sampleEnv).2.2 healthEndpoint (by decide) (by decide)).1,
    ((employee_routes_under_v1 sampleEnv).2.2 healthEndpoint (by decide) (by decide)).2 []
      healthRequest (by decide)⟩

/-- C8 as stated fails for a registrar that attaches an endpoint with the
relative path `../../admin` to the group: gin's path join resolves the `..`
elements, the route is registered at `/admin`, and `GET /admin`, a path outside
`/api/v1`, is served by the employee handler. -/
theorem employee_route_outside_v1 :
    adminEndpoint ∈ escapeEnv.endpoints ∧
      (listening escapeEnv).registrarCalls = [v1Group] ∧
      (listening escapeEnv).router.trees.map Route.fullPath =
        [["metrics"], ["admin"], ["swagger", "*any"]] ∧
      ¬ (["api", "v1"] <+: (employeeRoute adminEndpoint).fullPath) ∧
      (reached escapeEnv []).router.dispatch adminRequest = .route (employeeRoute adminEndpoint) ∧
      HandlerFunc.employee "admin" ∈ (employeeRoute adminEndpoint).handlers ∧
      (serve escapeEnv (reached escapeEnv []) adminRequest).1 = .response 200 "admin" ∧
      ¬ ("/api/v1".data <+: adminRequest.Path.data) := by
  decide

/-! ## Concurrent documentation requests -/

/-- A goroutine that runs its two statements without another one in between
does what the handler of the sequential model does. -/
theorem thread_alone {σ : Type} (env : Env σ) (info : SwaggerInfo) (r : Request) :
    interleave env [false, false] info (DocThread.start r) (DocThread.start r) =
      (swaggerSetHost info r,
        { request := r, todo := [], seen := some (swaggerSetHost info r)
          result := some (swaggerRender env (swaggerSetHost info r) r) },
        DocThread.start r) := rfl

/-- Under the schedule that lets the first goroutine finish before the second
starts, each request is rendered with its own host: the sequential case of C2. -/
theorem sequential_docs_own_host {σ : Type} (env : Env σ) (info : SwaggerInfo)
    (r1 r2 : Request) :
    (interleave env [false, false, true, true] info (DocThread.start r1)
        (DocThread.start r2)).2.1.seen = some (swaggerSetHost info r1) ∧
      (interleave env [false, false, true, true] info (DocThread.start r1)
        (DocThread.start r2)).2.2.seen = some (swaggerSetHost info r2) :=
  ⟨rfl, rfl⟩

/-- C9: two documentation requests with different host headers served
concurrently: under the schedule in which both goroutines write the host before
either calls the renderer, both run to completion and the first request is
rendered with the host of the second, not with its own. -/
theorem concurrent_docs_wrong_host {σ : Type} (env : Env σ) (info : SwaggerInfo)
    (r1 r2 : Request) (hdiff : r1.Host ≠ r2.Host) :
    ∃ schedule : List Bool,
      schedule.count false = 2 ∧ schedule.count true = 2 ∧
      (interleave env schedule info (DocThread.start r1) (DocThread.start r2)).2.1.todo = [] ∧
      (interleave env schedule info (DocThread.start r1) (DocThread.start r2)).2.2.todo = [] ∧
      (interleave env schedule info (DocThread.start r1) (DocThread.start r2)).2.1.seen =
        some { info with Host := r2.Host } ∧
      (interleave env schedule info (DocThread.start r1) (DocThread.start r2)).2.1.result =
        some (swaggerRender env { info with Host := r2.Host } r1) ∧
      { info with Host := r2.Host } ≠ swaggerSetHost info r1 := by
  refine ⟨[false, true, false, true], rfl, rfl, rfl, rfl, rfl, rfl, ?_⟩
  intro h
  have := congrArg SwaggerInfo.Host h
  exact hdiff this.symm

/-- C9 on the sample deployment: the request with host `a.example` is rendered
with `b.example`. -/
theorem concurrent_docs_wrong_host_witness :
    docsRequestA.Host ≠
        docsRequestB.Host ∧
      (interleave sampleEnv [false, true, false, true] ⟨"", "/api/v1/employee"⟩
        (DocThread.start docsRequestA)
        (DocThread.start docsRequestB)).2.1.result =
        some (.wrote 200 "b.example") ∧
      ∃ schedule : List Bool,
        schedule.count false = 2 ∧ schedule.count true = 2 ∧
        (interleave sampleEnv schedule ⟨"", "/api/v1/employee"⟩
          (DocThread.start docsRequestA)
          (DocThread.start docsRequestB)).2.1.todo = [] ∧
        (interleave sampleEnv schedule ⟨"", "/api/v1/employee"⟩
          (DocThread.start docsRequestA)
          (DocThread.start docsRequestB)).2.2.todo = [] ∧
        (interleave sampleEnv schedule ⟨"", "/api/v1/employee"⟩
          (DocThread.start docsRequestA)
          (DocThread.start docsRequestB)).2.1.seen =
          some { (⟨"", "/api/v1/employee"⟩ : SwaggerInfo) with Host := "b.example" } ∧
        (interleave sampleEnv schedule ⟨"", "/api/v1/employee"⟩
          (DocThread.start docsRequestA)
          (DocThread.start docsRequestB)).2.1.result =
          some (swaggerRender sampleEnv
            { (⟨"", "/api/v1/employee"⟩ : SwaggerInfo) with Host := "b.example" }
            docsRequestA) ∧
        { (⟨"", "/api/v1/employee"⟩ : SwaggerInfo) with Host := "b.example" } ≠
          swaggerSetHost ⟨"", "/api/v1/employee"⟩
            docsRequestA :=
  ⟨by decide, by decide,
    concurrent_docs_wrong_host sampleEnv ⟨"", "/api/v1/employee"⟩
      docsRequestA
      docsRequestB (by decide)⟩

end EmployeeApi
